import Mathlib

/-!
Verification of the charm_tui table model (`src/model/tableModel.go`).

The Go code is shallowly embedded: Go slices become `List`s, Go `int`
becomes `Int` (with `Nat` for lengths), Go strings become `String`
(compared as their character lists; UTF-8 byte order and code-point order
agree), and fallible Go operations (index panics, parse errors) return
`Option`.  The embedded bubbles `table.Model` widget keeps only the state
the repository observes: rows, columns, cursor, focus and size; its
documented operations (`SetCursor` clamps into range, `MoveUp`/`MoveDown`
clamp, key events are ignored when unfocused, `SelectedRow` returns nil
out of range) are reproduced.
-/

namespace CharmTui

/-- bubbles' `clamp(v, low, high) = min(max(v, low), high)`. -/
def clampI (v lo hi : Int) : Int := min (max v lo) hi

/-- `table.Column`: a column header title and its display width. -/
structure Column where
  title : String
  width : Int
deriving Repr, DecidableEq

/-- `table.Row`: one cell string per column. -/
abbrev Row := List String

/-- Shallow state of the embedded bubbles `table.Model`. -/
@[ext]
structure Widget where
  cols : List Column
  rows : List Row
  cursor : Int
  focused : Bool
  width : Int
  height : Int
deriving Repr, DecidableEq

/-- `table.New(WithColumns, WithRows, WithFocused, WithHeight)`: cursor starts at 0. -/
def Widget.new (cols : List Column) (rows : List Row) (focused : Bool)
    (width height : Int) : Widget :=
  { cols := cols, rows := rows, cursor := 0, focused := focused,
    width := width, height := height }

/-- bubbles `Model.SetCursor(n)`: clamps `n` into `[0, len(rows)-1]`. -/
def Widget.setCursor (t : Widget) (n : Int) : Widget :=
  { t with cursor := clampI n 0 (t.rows.length - 1) }

/-- bubbles `Model.SelectedRow()`: nil when the cursor is out of range. -/
def Widget.selectedRow (t : Widget) : Row :=
  if 0 ≤ t.cursor ∧ t.cursor < (t.rows.length : Int) then t.rows.getD t.cursor.toNat []
  else []

/-- bubbles `Model.Update` on a KeyUp/KeyDown message: ignored unless focused,
otherwise `MoveUp(1)` / `MoveDown(1)`, which clamp the cursor. -/
def Widget.keyMove (t : Widget) (up : Bool) : Widget :=
  if t.focused then
    { t with cursor := clampI (if up then t.cursor - 1 else t.cursor + 1) 0 (t.rows.length - 1) }
  else t

/-- `TableModel` (the repository's central state; presentation-only fields
such as styles, help and paginator state are omitted). -/
structure TableModel where
  table : Widget
  title : String
  rowCount : Nat
  queryDuration : Int
  sortColumn : Int
  sortAsc : Bool
  originalRows : List Row
  filteredRows : List Row
  allRows : List Row
  filterText : String
  filtering : Bool
  statusMsg : String
  tableColumns : List Column
  scrollOffset : Int
  maxColumns : Int
  width : Int
  height : Int
deriving Repr, DecidableEq

/-- The accumulation loop of `CalculateMaxColumns`: starting from running
total `total` and counter `count`, add `col.Width + 2` per column and stop
(without counting) as soon as the total exceeds `width`. -/
def calcMaxLoop (width : Int) : List Column → Int → Int → Int
  | [], _, count => count
  | c :: rest, total, count =>
    let total2 := total + c.width + 2
    if total2 > width then count else calcMaxLoop width rest total2 (count + 1)

/-- `CalculateMaxColumns` as a pure function of the column schema, the scroll
offset and the available width.  The Go loop skips indices `i < ScrollOffset`
(no index is skipped when the offset is negative), which is `drop off.toNat`. -/
def calcMaxColumns (cols : List Column) (off width : Int) : Int :=
  if cols.isEmpty then 0
  else
    let count := calcMaxLoop width (cols.drop off.toNat) 0 0
    if count = 0 ∧ off < (cols.length : Int) then 1 else count

/-- `m.CalculateMaxColumns()` (stores the result in `MaxColumns`). -/
def calculateMaxColumnsM (m : TableModel) : TableModel :=
  { m with maxColumns := calcMaxColumns m.tableColumns m.scrollOffset m.width }

/-- The spec's description of the visible-column count: starting at the
offset, count columns while the accumulated `displayWidth + padding` stays
within the available width; the overflowing column is not counted.
(Spec-side definition, for comparison with `calcMaxColumns`.) -/
def specVisibleCount (width : Int) : List Column → Nat
  | [] => 0
  | c :: rest =>
    if c.width + 2 > width then 0 else 1 + specVisibleCount (width - (c.width + 2)) rest

/-- The row slice built by `UpdateVisibleColumns` for one data row: when the
scroll offset is inside the row, one cell per visible column, with cells past
the end of a short row replaced by `""`; a row entirely left of the offset
stays the zero value (nil). -/
def sliceRow (off ncols : Nat) (row : Row) : Row :=
  if off < row.length then (List.range ncols).map (fun j => row.getD (off + j) "")
  else []

/-- The cursor "nudge" at the end of `UpdateVisibleColumns`: when rows exist,
send KeyDown+KeyUp (cursor on the first row), or KeyUp+KeyDown (elsewhere)
through the widget's `Update` to force its viewport to refresh. -/
def nudgeCursor (m : TableModel) : TableModel :=
  if 0 < m.table.rows.length then
    let c := m.table.cursor
    if c = 0 then
      { m with table := (m.table.keyMove false).keyMove true }
    else if c = (m.table.rows.length : Int) - 1 then
      { m with table := (m.table.keyMove true).keyMove false }
    else
      { m with table := (m.table.keyMove true).keyMove false }
  else m

/-- First block of `UpdateVisibleColumns`: clamp `ScrollOffset` into
`[0, columnCount-1]`. -/
def uvcClampOff (m : TableModel) : TableModel :=
  let len : Int := m.tableColumns.length
  let off0 := if m.scrollOffset < 0 then 0 else m.scrollOffset
  { m with scrollOffset := if off0 ≥ len then len - 1 else off0 }

/-- Second block of `UpdateVisibleColumns`: pull `ScrollOffset` left when the
window at the current offset would overshoot the right edge. -/
def uvcAdjustOff (m : TableModel) : TableModel :=
  if m.scrollOffset > 0 ∧ m.scrollOffset + m.maxColumns > (m.tableColumns.length : Int) then
    { m with scrollOffset := max ((m.tableColumns.length : Int) - m.maxColumns) 0 }
  else m

/-- Third block of `UpdateVisibleColumns`: slice the visible columns and rows,
rebuild the widget from scratch carrying focus and size, and restore the prior
cursor clamped into `[0, len(visibleRows)-1]` (only when rows exist). -/
def uvcRebuild (m : TableModel) : TableModel :=
  let endIdx := min (m.scrollOffset + m.maxColumns) (m.tableColumns.length : Int)
  let visCols := (m.tableColumns.drop m.scrollOffset.toNat).take (endIdx - m.scrollOffset).toNat
  let visRows := m.originalRows.map (sliceRow m.scrollOffset.toNat visCols.length)
  let t0 := Widget.new visCols visRows m.table.focused m.width m.height
  let t1 :=
    if 0 < visRows.length then
      t0.setCursor
        (if m.table.cursor < 0 then 0
         else if m.table.cursor ≥ (visRows.length : Int) then (visRows.length : Int) - 1
         else m.table.cursor)
    else t0
  { m with table := t1 }

/-- `UpdateVisibleColumns`: clamp the scroll offset into range, recompute the
visible-column count, adjust the offset left if the window would overshoot,
rebuild the widget, and nudge the cursor. -/
def updateVisibleColumns (m : TableModel) : TableModel :=
  if m.tableColumns.isEmpty then m
  else nudgeCursor (uvcRebuild (uvcAdjustOff (calculateMaxColumnsM (uvcClampOff m))))

/-- `EnsureCursorVisible`: clamp an out-of-range cursor, then repair a cursor
whose selected row does not resolve to rendered content. -/
def ensureCursorVisible (m : TableModel) : TableModel :=
  let cursor := m.table.cursor
  let rowCount := m.table.rows.length
  if rowCount = 0 then m
  else if cursor < 0 then { m with table := m.table.setCursor 0 }
  else if cursor ≥ (rowCount : Int) then { m with table := m.table.setCursor ((rowCount : Int) - 1) }
  else
    let sel := m.table.selectedRow
    if sel.length = 0 then
      let t1 := m.table.setCursor cursor
      if t1.selectedRow.length = 0 ∧ 0 < rowCount then { m with table := t1.setCursor 0 }
      else { m with table := t1 }
    else m

/-- Verification helper: the clamped scroll offset `UpdateVisibleColumns`
settles on (the "pull left" branch is dead code, proved below). -/
def uvcOff (m : TableModel) : Int :=
  clampI m.scrollOffset 0 ((m.tableColumns.length : Int) - 1)

/-- Verification helper: the visible-column count of the rebuilt window. -/
def uvcMax (m : TableModel) : Int :=
  calcMaxColumns m.tableColumns (uvcOff m) m.width

/-- Verification helper: width of the visible window in columns. -/
def uvcNcols (m : TableModel) : Nat :=
  (min (uvcOff m + uvcMax m) (m.tableColumns.length : Int) - uvcOff m).toNat

/-- Verification helper: the visible column slice. -/
def uvcVisCols (m : TableModel) : List Column :=
  (m.tableColumns.drop (uvcOff m).toNat).take (uvcNcols m)

/-- Verification helper: the visible row window. -/
def uvcVisRows (m : TableModel) : List Row :=
  m.originalRows.map (sliceRow (uvcOff m).toNat (uvcVisCols m).length)

/-- Verification helper: the widget rebuilt by `UpdateVisibleColumns`,
before the cursor restore. -/
def uvcT0 (m : TableModel) : Widget :=
  Widget.new (uvcVisCols m) (uvcVisRows m) m.table.focused m.width m.height

/-- Verification helper: the rebuilt widget after the cursor restore. -/
def uvcT1 (m : TableModel) : Widget :=
  if 0 < (uvcVisRows m).length then
    (uvcT0 m).setCursor
      (if m.table.cursor < 0 then 0
       else if m.table.cursor ≥ ((uvcVisRows m).length : Int) then ((uvcVisRows m).length : Int) - 1
       else m.table.cursor)
  else uvcT0 m

/-- Go string `<` compares bytes; on valid UTF-8 that equals code-point
lexicographic order, computed here on the character list. -/
def strLt : List Char → List Char → Bool
  | [], [] => false
  | [], _ :: _ => true
  | _ :: _, [] => false
  | c :: cs, d :: ds => if c < d then true else if d < c then false else strLt cs ds

/-- Decimal digit accumulator. -/
def digitsVal (cs : List Char) : Nat :=
  cs.foldl (fun acc c => 10 * acc + (c.toNat - '0'.toNat)) 0

/-- An exact decimal number `num * 10 ^ exp` (the parse result of a numeric
cell; kept in scaled-integer form so that comparisons compute by integer
arithmetic). -/
structure Dec where
  num : Int
  exp : Int
deriving Repr, DecidableEq

/-- The rational value of a parsed decimal. -/
def decValue (d : Dec) : Rat := (d.num : Rat) * (10 : Rat) ^ d.exp

/-- Numeric strictly-less on parsed decimals, by cross-scaling to a common
exponent (proved below to agree with `decValue` order). -/
def decLt (a b : Dec) : Bool :=
  let m := min a.exp b.exp
  decide (a.num * 10 ^ (a.exp - m).toNat < b.num * 10 ^ (b.exp - m).toNat)

/-- `strconv.ParseFloat(s, 64)`, modelled exactly for the decimal grammar
`[+-]? digits [. digits]? ([eE] [+-]? digits)?` (at least one mantissa
digit).  Outside the model: hex floats, underscores, inf/nan specials,
float64 rounding and range errors — none of which the verified properties
depend on. -/
def parseFloat (s : String) : Option Dec :=
  match s.data with
  | [] => none
  | cs =>
    let sign : Int := if cs.head? = some '-' then -1 else 1
    let cs1 := if cs.head? = some '-' ∨ cs.head? = some '+' then cs.tail else cs
    let ipr := cs1.span Char.isDigit
    let fpr := match ipr.2 with
      | '.' :: t => t.span Char.isDigit
      | _ => (([] : List Char), ipr.2)
    if ipr.1.isEmpty ∧ fpr.1.isEmpty then none
    else
      let num : Int := sign * (digitsVal (ipr.1 ++ fpr.1) : Int)
      match fpr.2 with
      | [] => some ⟨num, -(fpr.1.length : Int)⟩
      | e :: t =>
        if e = 'e' ∨ e = 'E' then
          let esign : Int := if t.head? = some '-' then -1 else 1
          let t1 := if t.head? = some '-' ∨ t.head? = some '+' then t.tail else t
          let edr := t1.span Char.isDigit
          if edr.1.isEmpty ∨ ¬ edr.2.isEmpty then none
          else some ⟨num, esign * (digitsVal edr.1 : Int) - (fpr.1.length : Int)⟩
        else none

/-- The comparator body of `SortRows` on two cell strings: numeric when both
cells parse as floats, otherwise case-sensitive lexical; descending uses the
reversed comparison (Go's `a > b` is `b < a`). -/
def cellLess (asc : Bool) (a b : String) : Bool :=
  match parseFloat a, parseFloat b with
  | some x, some y => if asc then decLt x y else decLt y x
  | _, _ => if asc then strLt a.data b.data else strLt b.data a.data

/-- The `sort.Slice` comparator of `SortRows`: compares the cells in the sort
column (`rows[i][col]`; Go panics out of range — the sort claims are settled
on schema-length rows where `getD` coincides with Go indexing). -/
def rowLess (col : Nat) (asc : Bool) (r1 r2 : Row) : Bool :=
  cellLess asc (r1.getD col "") (r2.getD col "")

/-! ### Go's `sort.Slice` (pdqsort, `sort/zsortfunc.go`)

`sort.Slice` is *not* a stable sort; to settle the stability claim the
algorithm is reproduced: insertion sort below 13 elements, heapsort at the
depth limit, pattern breaking, pivot selection by (approximate) median, and
the two partition schemes.  Loops whose Go termination argument is not
structural carry explicit fuel chosen large enough to never run out on the
inputs evaluated. -/

/-- `xs[i]` for an `Array` of rows (all model indices stay in bounds). -/
def rget (xs : Array Row) (i : Nat) : Row := xs.getD i []

/-- `data.Swap(i, j)`. -/
def rswap (xs : Array Row) (i j : Nat) : Array Row :=
  let x := rget xs i
  let y := rget xs j
  (xs.setD i y).setD j x

/-- Inner loop of `insertionSort_func` (fuel-bounded; callers pass `j`). -/
def insInner (lt : Row → Row → Bool) (a : Nat) : Nat → Array Row → Nat → Array Row
  | 0, xs, _ => xs
  | fuel + 1, xs, j =>
    if a < j ∧ lt (rget xs j) (rget xs (j - 1)) then
      insInner lt a fuel (rswap xs j (j - 1)) (j - 1)
    else xs

/-- Outer loop of `insertionSort_func` (fuel-bounded; callers pass `b`). -/
def insOuter (lt : Row → Row → Bool) (a b : Nat) : Nat → Array Row → Nat → Array Row
  | 0, xs, _ => xs
  | fuel + 1, xs, i =>
    if i < b then insOuter lt a b fuel (insInner lt a i xs i) (i + 1) else xs

/-- `insertionSort_func(data, a, b)`. -/
def insertionSortGo (lt : Row → Row → Bool) (xs : Array Row) (a b : Nat) : Array Row :=
  insOuter lt a b b xs (a + 1)

/-- `siftDown_func` (fuel-bounded descent). -/
def siftDownGo (lt : Row → Row → Bool) (xs : Array Row) (root hi first fuel : Nat) :
    Array Row :=
  match fuel with
  | 0 => xs
  | fuel + 1 =>
    let child0 := 2 * root + 1
    if child0 ≥ hi then xs
    else
      let child :=
        if child0 + 1 < hi ∧ lt (rget xs (first + child0)) (rget xs (first + child0 + 1)) then
          child0 + 1
        else child0
      if ¬ lt (rget xs (first + root)) (rget xs (first + child)) then xs
      else siftDownGo lt (rswap xs (first + root) (first + child)) child hi first fuel

/-- Heap-build loop of `heapSort_func` (`i` from `(hi-1)/2` down to 0). -/
def heapBuild (lt : Row → Row → Bool) (hi first : Nat) (xs : Array Row) : Nat → Array Row
  | 0 => xs
  | fuel + 1 => heapBuild lt hi first (siftDownGo lt xs fuel hi first (hi + 1)) fuel

/-- Pop loop of `heapSort_func` (`i` from `hi-1` down to 0). -/
def heapPop (lt : Row → Row → Bool) (first : Nat) (xs : Array Row) : Nat → Array Row
  | 0 => xs
  | fuel + 1 =>
    heapPop lt first (siftDownGo lt (rswap xs first (first + fuel)) 0 fuel first (fuel + 1)) fuel

/-- `heapSort_func(data, a, b)`. -/
def heapSortGo (lt : Row → Row → Bool) (xs : Array Row) (a b : Nat) : Array Row :=
  let hi := b - a
  heapPop lt a (heapBuild lt hi a xs ((hi - 1) / 2 + 1)) hi

/-- Swap loop of `reverseRange_func` (fuel-bounded; callers pass `b`). -/
def revLoop : Nat → Array Row → Nat → Nat → Array Row
  | 0, xs, _, _ => xs
  | fuel + 1, xs, i, j => if i < j then revLoop fuel (rswap xs i j) (i + 1) (j - 1) else xs

/-- `bits.Len(uint(n))`. -/
def goBitsLen (n : Nat) : Nat := if n = 0 then 0 else Nat.log2 n + 1

/-- One step of the xorshift generator used by `breakPatterns_func`
(64-bit wraparound). -/
def xorshiftNext (r : Nat) : Nat :=
  let r1 := (r ^^^ (r <<< 13)) % 2 ^ 64
  let r2 := r1 ^^^ (r1 >>> 17)
  (r2 ^^^ (r2 <<< 7)) % 2 ^ 64

/-- One swap of `breakPatterns_func`'s three-iteration loop. -/
def breakOne (xs : Array Row) (a length idx i r : Nat) : Array Row × Nat :=
  let r' := xorshiftNext r
  let modulus := 2 ^ goBitsLen length
  let other0 := r' &&& (modulus - 1)
  let other := if other0 ≥ length then other0 - length else other0
  (rswap xs (idx - 1 + i) (a + other), r')

/-- `breakPatterns_func(data, a, b)`. -/
def breakPatternsGo (xs : Array Row) (a b : Nat) : Array Row :=
  let length := b - a
  if length ≥ 8 then
    let idx := a + length / 4 * 2 - 1
    let s0 := breakOne xs a length idx 0 length
    let s1 := breakOne s0.1 a length idx 1 s0.2
    (breakOne s1.1 a length idx 2 s1.2).1
  else xs

/-- `order2_func`: order two indices by the data they point to, counting swaps. -/
def order2Go (lt : Row → Row → Bool) (xs : Array Row) (a b swaps : Nat) :
    Nat × Nat × Nat :=
  if lt (rget xs b) (rget xs a) then (b, a, swaps + 1) else (a, b, swaps)

/-- `median_func`: index of the median of three, threading the swap count. -/
def medianGo (lt : Row → Row → Bool) (xs : Array Row) (a b c swaps : Nat) : Nat × Nat :=
  let p1 := order2Go lt xs a b swaps
  let p2 := order2Go lt xs p1.2.1 c p1.2.2
  let p3 := order2Go lt xs p1.1 p2.1 p2.2.2
  (p3.2.1, p3.2.2)

/-- `medianAdjacent_func`. -/
def medianAdjGo (lt : Row → Row → Bool) (xs : Array Row) (a swaps : Nat) : Nat × Nat :=
  medianGo lt xs (a - 1) a (a + 1) swaps

/-- `choosePivot_func`: returns the pivot index and a hint
(0 unknown, 1 increasing, 2 decreasing). -/
def choosePivotGo (lt : Row → Row → Bool) (xs : Array Row) (a b : Nat) : Nat × Nat :=
  let l := b - a
  let i := a + l / 4 * 1
  let j := a + l / 4 * 2
  let k := a + l / 4 * 3
  if l ≥ 8 then
    if l ≥ 50 then
      let m1 := medianAdjGo lt xs i 0
      let m2 := medianAdjGo lt xs j m1.2
      let m3 := medianAdjGo lt xs k m2.2
      let mf := medianGo lt xs m1.1 m2.1 m3.1 m3.2
      (mf.1, if mf.2 = 0 then 1 else if mf.2 = 12 then 2 else 0)
    else
      let mf := medianGo lt xs i j k 0
      (mf.1, if mf.2 = 0 then 1 else if mf.2 = 12 then 2 else 0)
  else (j, 1)

/-- First inner loop of `partition_func`: advance `i` over elements less than
the pivot at `aP` (fuel-bounded; callers pass `j + 1`). -/
def skipI (lt : Row → Row → Bool) (xs : Array Row) (aP j : Nat) : Nat → Nat → Nat
  | 0, i => i
  | fuel + 1, i =>
    if i ≤ j ∧ lt (rget xs i) (rget xs aP) then skipI lt xs aP j fuel (i + 1) else i

/-- Second inner loop of `partition_func`: decrease `j` over elements not less
than the pivot (fuel-bounded; callers pass `j + 1`, enough because Go's `i`
is at least `a + 1 ≥ 1` here). -/
def skipJ (lt : Row → Row → Bool) (xs : Array Row) (aP i : Nat) : Nat → Nat → Nat
  | 0, j => j
  | fuel + 1, j =>
    if i ≤ j ∧ ¬ lt (rget xs j) (rget xs aP) then skipJ lt xs aP i fuel (j - 1) else j

/-- Main loop of `partition_func` (fuel-bounded). -/
def partLoop (lt : Row → Row → Bool) (xs : Array Row) (aP i j : Nat) :
    Nat → Array Row × Nat
  | 0 => (xs, j)
  | fuel + 1 =>
    let i' := skipI lt xs aP j (j + 1) i
    let j' := skipJ lt xs aP i' (j + 1) j
    if i' > j' then (xs, j')
    else partLoop lt (rswap xs i' j') aP (i' + 1) (j' - 1) fuel

/-- `partition_func(data, a, b, pivot)`: returns the mutated data, the new
pivot position, and whether the range was already partitioned. -/
def partitionGo (lt : Row → Row → Bool) (xs0 : Array Row) (a b pivot : Nat) :
    Array Row × Nat × Bool :=
  let xs := rswap xs0 a pivot
  let i1 := skipI lt xs a (b - 1) b (a + 1)
  let j1 := skipJ lt xs a i1 b (b - 1)
  if i1 > j1 then (rswap xs j1 a, j1, true)
  else
    let res := partLoop lt (rswap xs i1 j1) a (i1 + 1) (j1 - 1) b
    (rswap res.1 res.2 a, res.2, false)

/-- First inner loop of `partitionEqual_func` (fuel-bounded). -/
def skipIEq (lt : Row → Row → Bool) (xs : Array Row) (aP j : Nat) : Nat → Nat → Nat
  | 0, i => i
  | fuel + 1, i =>
    if i ≤ j ∧ ¬ lt (rget xs aP) (rget xs i) then skipIEq lt xs aP j fuel (i + 1) else i

/-- Second inner loop of `partitionEqual_func` (fuel-bounded like `skipJ`). -/
def skipJEq (lt : Row → Row → Bool) (xs : Array Row) (aP i : Nat) : Nat → Nat → Nat
  | 0, j => j
  | fuel + 1, j =>
    if i ≤ j ∧ lt (rget xs aP) (rget xs j) then skipJEq lt xs aP i fuel (j - 1) else j

/-- Loop of `partitionEqual_func` (fuel-bounded). -/
def partEqLoop (lt : Row → Row → Bool) (xs : Array Row) (aP i j : Nat) :
    Nat → Array Row × Nat
  | 0 => (xs, i)
  | fuel + 1 =>
    let i' := skipIEq lt xs aP j (j + 1) i
    let j' := skipJEq lt xs aP i' (j + 1) j
    if i' > j' then (xs, i')
    else partEqLoop lt (rswap xs i' j') aP (i' + 1) (j' - 1) fuel

/-- `partitionEqual_func(data, a, b, pivot)`: partitions elements equal to the
pivot; returns the first index of the strictly-greater suffix. -/
def partitionEqualGo (lt : Row → Row → Bool) (xs0 : Array Row) (a b pivot : Nat) :
    Array Row × Nat :=
  let xs := rswap xs0 a pivot
  partEqLoop lt xs a (a + 1) (b - 1) b

/-- Ascending-run scan of `partialInsertionSort_func` (fuel-bounded; callers
pass `b`). -/
def advI (lt : Row → Row → Bool) (xs : Array Row) (b : Nat) : Nat → Nat → Nat
  | 0, i => i
  | fuel + 1, i =>
    if i < b ∧ ¬ lt (rget xs i) (rget xs (i - 1)) then advI lt xs b fuel (i + 1) else i

/-- Left-shifting loop of `partialInsertionSort_func` (fuel-bounded). -/
def shiftL (lt : Row → Row → Bool) : Nat → Array Row → Nat → Array Row
  | 0, xs, _ => xs
  | fuel + 1, xs, j =>
    if 1 ≤ j ∧ lt (rget xs j) (rget xs (j - 1)) then shiftL lt fuel (rswap xs j (j - 1)) (j - 1)
    else xs

/-- Right-shifting loop of `partialInsertionSort_func` (fuel-bounded). -/
def shiftR (lt : Row → Row → Bool) (b : Nat) : Nat → Array Row → Nat → Array Row
  | 0, xs, _ => xs
  | fuel + 1, xs, j =>
    if j < b ∧ lt (rget xs j) (rget xs (j - 1)) then shiftR lt b fuel (rswap xs j (j - 1)) (j + 1)
    else xs

/-- Step loop of `partialInsertionSort_func` (at most 5 adjacent out-of-order
pairs are repaired; on ranges shorter than 50 nothing is shifted). -/
def partialInsLoop (lt : Row → Row → Bool) (a b : Nat) (xs : Array Row) (i : Nat) :
    Nat → Array Row × Bool
  | 0 => (xs, false)
  | steps + 1 =>
    let i' := advI lt xs b b i
    if i' = b then (xs, true)
    else if b - a < 50 then (xs, false)
    else
      let xs1 := rswap xs i' (i' - 1)
      let xs2 := if i' - a ≥ 2 then shiftL lt (i' - 1) xs1 (i' - 1) else xs1
      let xs3 := if b - i' ≥ 2 then shiftR lt b b xs2 (i' + 1) else xs2
      partialInsLoop lt a b xs3 i' steps

/-- `partialInsertionSort_func(data, a, b)`: data after the attempt, and
whether the range ended fully sorted. -/
def partialInsertionSortGo (lt : Row → Row → Bool) (xs : Array Row) (a b : Nat) :
    Array Row × Bool :=
  partialInsLoop lt a b xs (a + 1) 5

/-- `pdqsort_func(data, a, b, limit)` (fuel-bounded; the fuel never runs out
on the inputs evaluated, and exhaustion returns the data unchanged, which the
concrete evaluations below would expose). -/
def pdqRun (lt : Row → Row → Bool) :
    Nat → Array Row → Nat → Nat → Nat → Bool → Bool → Array Row
  | 0, xs, _, _, _, _, _ => xs
  | fuel + 1, xs, a, b, limit, wasBalanced, wasPartitioned =>
    let length := b - a
    if length ≤ 12 then insertionSortGo lt xs a b
    else if limit = 0 then heapSortGo lt xs a b
    else
      let xs1 := if ¬ wasBalanced then breakPatternsGo xs a b else xs
      let limit1 := if ¬ wasBalanced then limit - 1 else limit
      let pv := choosePivotGo lt xs1 a b
      let xs2 := if pv.2 = 2 then revLoop b xs1 a (b - 1) else xs1
      let pivot := if pv.2 = 2 then (b - 1) - (pv.1 - a) else pv.1
      let hint := if pv.2 = 2 then 1 else pv.2
      let pres :=
        if wasBalanced ∧ wasPartitioned ∧ hint = 1 then partialInsertionSortGo lt xs2 a b
        else (xs2, false)
      if pres.2 then pres.1
      else
        let xs3 := pres.1
        if 0 < a ∧ ¬ lt (rget xs3 (a - 1)) (rget xs3 pivot) then
          let peq := partitionEqualGo lt xs3 a b pivot
          pdqRun lt fuel peq.1 peq.2 b limit1 wasBalanced wasPartitioned
        else
          let pp := partitionGo lt xs3 a b pivot
          let mid := pp.2.1
          let leftLen := mid - a
          let rightLen := b - mid
          let wasBalanced' := decide (min leftLen rightLen ≥ length / 8)
          if leftLen < rightLen then
            pdqRun lt fuel (pdqRun lt fuel pp.1 a mid limit1 true true)
              (mid + 1) b limit1 wasBalanced' pp.2.2
          else
            pdqRun lt fuel (pdqRun lt fuel pp.1 (mid + 1) b limit1 true true)
              a mid limit1 wasBalanced' pp.2.2

/-- `sort.Slice(rows, less)`: pdqsort over the whole slice with depth limit
`bits.Len(uint(n))`. -/
def goSortSlice (lt : Row → Row → Bool) (rows : List Row) : List Row :=
  let n := rows.length
  (pdqRun lt (8 * n + 64) rows.toArray 0 n (goBitsLen n) true true).toList

/-- The row reordering performed by `SortRows` for a valid column. -/
def goSortRows (rows : List Row) (col : Nat) (asc : Bool) : List Row :=
  goSortSlice (rowLess col asc) rows

/-- `SortRows`: no-op when `SortColumn < 0`, otherwise sort the active rows
and rebuild the viewport. -/
def sortRowsM (m : TableModel) : TableModel :=
  if m.sortColumn < 0 then m
  else
    updateVisibleColumns
      { m with originalRows := goSortRows m.originalRows m.sortColumn.toNat m.sortAsc }

/-- `strings.ToLower`, on the ASCII range (the verified properties use only
ASCII case folding; Unicode simple folding beyond ASCII is outside the model). -/
def goToLower (s : String) : String := String.mk (s.data.map Char.toLower)

/-- Substring scan underlying `strings.Contains`. -/
def containsSub (hay needle : List Char) : Bool :=
  if needle.isPrefixOf hay then true
  else
    match hay with
    | [] => false
    | _ :: t => containsSub t needle

/-- `strings.Contains(s, sub)`. -/
def goContains (s sub : String) : Bool := containsSub s.data sub.data

/-- Go slice indexing `r[i]` on a row: `none` models the index panic. -/
def goIndexStr (r : Row) (i : Int) : Option String :=
  if 0 ≤ i ∧ i < (r.length : Int) then some (r.getD i.toNat "") else none

/-- Go slice indexing on the column schema: `none` models the index panic. -/
def goIndexCol (cols : List Column) (i : Int) : Option Column :=
  if 0 ≤ i ∧ i < (cols.length : Int) then some (cols.getD i.toNat ⟨"", 0⟩) else none

/-- The row loop of `ApplyFilter`: keep the rows of `AllRows` whose
(lower-cased) cell in the sort column contains the (pre-lowered) query;
`none` models the panic on a row shorter than the column index. -/
def filterRows (col : Int) (txt : String) : List Row → Option (List Row)
  | [] => some []
  | r :: rs =>
    match goIndexStr r col with
    | none => none
    | some cell =>
      match filterRows col txt rs with
      | none => none
      | some rest =>
        if goContains (goToLower cell) txt then some (r :: rest) else some rest

/-- `ApplyFilter`: empty query restores `AllRows` (when non-empty) and
rebuilds; otherwise filter `AllRows` into both `FilteredRows` and
`OriginalRows`, rebuild, and format the status message (whose column-title
lookup can also panic). -/
def applyFilterM (m : TableModel) : Option TableModel :=
  if m.filterText = "" then
    let m1 := if 0 < m.allRows.length then { m with originalRows := m.allRows } else m
    some { updateVisibleColumns m1 with statusMsg := "已恢复全部数据" }
  else
    match filterRows m.sortColumn (goToLower m.filterText) m.allRows with
    | none => none
    | some filtered =>
      let m1 := { m with filteredRows := filtered, originalRows := filtered }
      let m2 := updateVisibleColumns m1
      match goIndexCol m.tableColumns m.sortColumn with
      | none => none
      | some c =>
        some { m2 with statusMsg :=
          "筛选结果: 在列 [" ++ c.title ++ "] 中找到 " ++ toString filtered.length ++
            " 行匹配数据" }

/-- The End key handler (`Keys.End` case of `Update`): jump to
`maxScroll = max(len(TableColumns)-1, 0)`, rebuild, restore the cursor,
run the cursor guard. -/
def endKey (m : TableModel) : TableModel :=
  let maxScroll0 := (m.tableColumns.length : Int) - 1
  let maxScroll := if maxScroll0 < 0 then 0 else maxScroll0
  if m.scrollOffset ≠ maxScroll then
    let cur := m.table.cursor
    let m1 := updateVisibleColumns { m with scrollOffset := maxScroll }
    ensureCursorVisible { m1 with table := m1.table.setCursor cur }
  else m

/-- The Home key handler (`Keys.Home` case of `Update`). -/
def homeKey (m : TableModel) : TableModel :=
  if m.scrollOffset > 0 then
    let cur := m.table.cursor
    let m1 := updateVisibleColumns { m with scrollOffset := 0 }
    ensureCursorVisible { m1 with table := m1.table.setCursor cur }
  else m

/-! ### CSV export (`ExportToCSV`) and a standard CSV parser -/

/-- `strings.ReplaceAll(s, "\"", "\"\"")` at character level. -/
def escQ : List Char → List Char
  | [] => []
  | c :: cs => if c = '"' then '"' :: '"' :: escQ cs else c :: escQ cs

/-- Whether `ExportToCSV` quotes a cell: it contains the delimiter, a quote,
or a newline. -/
def needsQuote (s : List Char) : Bool :=
  s.any (fun c => c = ',' || c = '"' || c = '\n')

/-- A field with none of the characters that trigger quoting (such a field
is exported verbatim). -/
def cleanF (s : List Char) : Bool := ! needsQuote s

/-- One exported cell: quoted with doubled inner quotes when needed. -/
def renderField (s : List Char) : List Char :=
  if needsQuote s then '"' :: (escQ s ++ ['"']) else s

/-- `strings.Join(values, ",")` over rendered cells. -/
def renderLine : List (List Char) → List Char
  | [] => []
  | [f] => renderField f
  | f :: fs => renderField f ++ ',' :: renderLine fs

/-- `strings.Join(headers, ",")` — header titles are written verbatim,
without any quoting. -/
def joinComma : List (List Char) → List Char
  | [] => []
  | [f] => f
  | f :: fs => f ++ ',' :: joinComma fs

/-- The lines `ExportToCSV` writes: one header line, then one line per row of
`OriginalRows`. -/
def exportLines (cols : List Column) (rows : List Row) : List (List Char) :=
  joinComma (cols.map (fun c => c.title.data)) ::
    rows.map (fun r => renderLine (r.map String.data))

/-- `fmt.Fprintln` terminates every line with a newline. -/
def renderCSV (lines : List (List Char)) : List Char :=
  lines.foldr (fun l acc => l ++ '\n' :: acc) []

/-- The full text `ExportToCSV` writes to the output file. -/
def exportChars (cols : List Column) (rows : List Row) : List Char :=
  renderCSV (exportLines cols rows)

/-- Reader states of the spec-side CSV parser: outside quotes, inside a
quoted field, or just after a quote inside a quoted field (which either
doubles to a literal quote or closes the field). -/
inductive CsvMode where
  | normal
  | quoted
  | quotedQuote
deriving Repr, DecidableEq

/-- Standard (RFC-4180-style, `\n`-terminated) CSV reader: spec-side
definition used to state the export round-trip.  `field` and `rcd`
accumulate the current field and record. -/
def parseAux : List Char → CsvMode → List Char → List String → List (List String)
  | [], .normal, field, rcd =>
    if field.isEmpty ∧ rcd.isEmpty then [] else [rcd ++ [String.mk field]]
  | [], _, field, rcd => [rcd ++ [String.mk field]]
  | c :: rest, .quoted, field, rcd =>
    if c = '"' then parseAux rest .quotedQuote field rcd
    else parseAux rest .quoted (field ++ [c]) rcd
  | c :: rest, .quotedQuote, field, rcd =>
    if c = '"' then parseAux rest .quoted (field ++ ['"']) rcd
    else if c = ',' then parseAux rest .normal [] (rcd ++ [String.mk field])
    else if c = '\n' then (rcd ++ [String.mk field]) :: parseAux rest .normal [] []
    else parseAux rest .normal (field ++ [c]) rcd
  | c :: rest, .normal, field, rcd =>
    if c = ',' then parseAux rest .normal [] (rcd ++ [String.mk field])
    else if c = '\n' then (rcd ++ [String.mk field]) :: parseAux rest .normal [] []
    else if c = '"' ∧ field.isEmpty then parseAux rest .quoted [] rcd
    else parseAux rest .normal (field ++ [c]) rcd

/-- Parse a whole CSV text into records of fields. -/
def parseCSV (s : List Char) : List (List String) := parseAux s .normal [] []

/-! ### `time.ParseDuration` and `ShowTable` -/

/-- `leadingInt`: consume leading digits with Go's int64 overflow checks. -/
def leadingIntGo : List Char → Nat → Option (Nat × List Char)
  | [], x => some (x, [])
  | c :: rest, x =>
    if c < '0' ∨ c > '9' then some (x, c :: rest)
    else if x > 2 ^ 63 / 10 then none
    else
      let x2 := 10 * x + (c.toNat - '0'.toNat)
      if x2 > 2 ^ 63 then none else leadingIntGo rest x2

/-- `leadingFraction`: consume fraction digits, freezing on overflow
(returns value, scale, rest). -/
def leadingFractionGo : List Char → Nat → Nat → Bool → Nat × Nat × List Char
  | [], x, scale, _ => (x, scale, [])
  | c :: rest, x, scale, overflow =>
    if c < '0' ∨ c > '9' then (x, scale, c :: rest)
    else if overflow then leadingFractionGo rest x scale true
    else if x > (2 ^ 63 - 1) / 10 then leadingFractionGo rest x scale true
    else
      let y := 10 * x + (c.toNat - '0'.toNat)
      if y > 2 ^ 63 then leadingFractionGo rest x scale true
      else leadingFractionGo rest y (scale * 10) false

/-- Go's `unitMap` (nanoseconds per unit). -/
def unitNanos (u : List Char) : Option Nat :=
  if u = ['n', 's'] then some 1
  else if u = ['u', 's'] ∨ u = ['µ', 's'] ∨ u = ['μ', 's'] then some 1000
  else if u = ['m', 's'] then some 1000000
  else if u = ['s'] then some 1000000000
  else if u = ['m'] then some 60000000000
  else if u = ['h'] then some 3600000000000
  else none

/-- The unit scan: everything up to the next digit or dot. -/
def takeUnit (cs : List Char) : List Char × List Char :=
  cs.span (fun c => ¬ (c = '.' ∨ ('0' ≤ c ∧ c ≤ '9')))

/-- The `(number [. fraction] unit)+` loop of `time.ParseDuration`
(fuel-bounded: every iteration consumes at least one character; the fraction
contribution uses exact truncating division in place of Go's float64
product, which the verified properties do not depend on). -/
def parseDurLoop : Nat → List Char → Nat → Option Nat
  | 0, _, _ => none
  | fuel + 1, cs, d =>
    match cs with
    | [] => some d
    | c0 :: _ =>
      if ¬ (c0 = '.' ∨ c0.isDigit) then none
      else
        match leadingIntGo cs 0 with
        | none => none
        | some (v0, s1) =>
          let pre := s1.length ≠ cs.length
          let fr :=
            match s1 with
            | '.' :: t =>
              let r := leadingFractionGo t 0 1 false
              (r.1, r.2.1, r.2.2, decide (r.2.2.length ≠ t.length))
            | _ => (0, 1, s1, false)
          if ¬ pre ∧ ¬ fr.2.2.2 then none
          else
            let us := takeUnit fr.2.2.1
            if us.1.isEmpty then none
            else
              match unitNanos us.1 with
              | none => none
              | some unit =>
                if v0 > 2 ^ 63 / unit then none
                else
                  let v1 := v0 * unit
                  let v2 := if 0 < fr.1 then v1 + fr.1 * unit / fr.2.1 else v1
                  if v2 > 2 ^ 63 then none
                  else if d + v2 > 2 ^ 63 then none
                  else parseDurLoop fuel us.2 (d + v2)

/-- `time.ParseDuration`: optional sign, the special case `"0"`, empty input
is an error, otherwise the number+unit loop. -/
def goParseDuration (s : String) : Option Int :=
  let cs := s.data
  let neg := cs.head? = some '-'
  let cs1 := if cs.head? = some '-' ∨ cs.head? = some '+' then cs.tail else cs
  if cs1 = ['0'] then some 0
  else if cs1.isEmpty then none
  else
    match parseDurLoop (cs1.length + 1) cs1 0 with
    | none => none
    | some d =>
      if neg then some (-(d : Int))
      else if d > 2 ^ 63 - 1 then none
      else some (d : Int)

/-- `TableData` (metadata as an association list; a missing key reads as
Go's zero value `""`). -/
structure TableData where
  title : String
  headers : List String
  rows : List Row
  metadata : List (String × String)
deriving Repr, DecidableEq

/-- Go map lookup with zero-value default. -/
def lookupGo (md : List (String × String)) (k : String) : String :=
  match md.find? (fun p => p.1 = k) with
  | some p => p.2
  | none => ""

/-- `NewTableModel()` defaults (presentation fields omitted). -/
def newTableModel : TableModel where
  table := { cols := [], rows := [], cursor := 0, focused := false, width := 0, height := 0 }
  title := ""
  rowCount := 0
  queryDuration := 0
  sortColumn := -1
  sortAsc := true
  originalRows := []
  filteredRows := []
  allRows := []
  filterText := ""
  filtering := false
  statusMsg := ""
  tableColumns := []
  scrollOffset := 0
  maxColumns := 0
  width := 0
  height := 0

/-- The column-width clamp of `ShowTable` (`[10, 40]`). -/
def clampWidth (w : Nat) : Nat := if w < 10 then 10 else if w > 40 then 40 else w

/-- One row's pass of the max-width scan of `ShowTable`
(`len` is Go byte length, i.e. UTF-8 size). -/
def updColWidths (widths : List Nat) (row : Row) : List Nat :=
  (List.range widths.length).map (fun i =>
    let w := widths.getD i 0
    match row.get? i with
    | some cell => if cell.utf8ByteSize > w then cell.utf8ByteSize + 2 else w
    | none => w)

/-- `ShowTable`: build columns (byte-width based, clamped), convert rows,
insert the `"无数据"` placeholder row when there are no data rows, size from
the terminal (`none` = size query failed), parse the optional QueryDuration
metadata (failure aborts the load), then compute the visible window.  The
final `tea.NewProgram.Run` is outside the model. -/
def showTableM (data : TableData) (termSize : Option (Int × Int)) : Option TableModel :=
  let w0 := data.headers.map (fun h => h.utf8ByteSize + 2)
  let widths := data.rows.foldl updColWidths w0
  let tableColumns := (List.range data.headers.length).map
    (fun i => Column.mk (data.headers.getD i "") ((clampWidth (widths.getD i 0) : Int)))
  let tableRows :=
    if data.rows.length = 0 then [List.replicate data.headers.length "无数据"]
    else data.rows
  let wh : Int × Int :=
    match termSize with
    | some (w, h) => (w - 4, if h - 12 < 10 then 10 else h - 12)
    | none => (80, 20)
  let t := Widget.new tableColumns tableRows true 0 wh.2
  match goParseDuration (lookupGo data.metadata "QueryDuration") with
  | none => none
  | some dur =>
    let m := { newTableModel with
      title := data.title
      rowCount := data.rows.length
      originalRows := tableRows
      allRows := tableRows
      tableColumns := tableColumns
      width := wh.1
      height := wh.2
      queryDuration := dur
      table := t }
    some (updateVisibleColumns (calculateMaxColumnsM m))

/-- Concrete example state (two columns, two full rows, stale out-of-range
cursor) used by witnesses. -/
def exState1 : TableModel where
  table := { cols := [], rows := [], cursor := 5, focused := true, width := 80, height := 10 }
  title := "t"
  rowCount := 2
  queryDuration := 0
  sortColumn := -1
  sortAsc := true
  originalRows := [["a", "b"], ["c", "d"]]
  filteredRows := []
  allRows := [["a", "b"], ["c", "d"]]
  filterText := ""
  filtering := false
  statusMsg := ""
  tableColumns := [⟨"A", 10⟩, ⟨"B", 10⟩]
  scrollOffset := 0
  maxColumns := 0
  width := 30
  height := 10

/-- Concrete state for the filter witness: three rows, filtering the Name
column (index 1) for "A" case-insensitively. -/
def exState4 : TableModel :=
  { exState1 with
      filterText := "A"
      sortColumn := 1
      allRows := [["1", "Alice"], ["2", "bob"], ["3", "Cara"]]
      originalRows := [["1", "Alice"], ["2", "bob"], ["3", "Cara"]] }

/-- Concrete state for the short-row filter counterexample. -/
def exState6 : TableModel :=
  { exState1 with
      filterText := "a"
      sortColumn := 1
      allRows := [["x"]]
      originalRows := [["x"]] }

/-- Concrete state for the End-key counterexample: three columns that all fit
in the available width, scrolled fully left. -/
def exState7 : TableModel :=
  { exState1 with
      tableColumns := [⟨"A", 8⟩, ⟨"B", 8⟩, ⟨"C", 8⟩]
      width := 100
      maxColumns := 3
      originalRows := [["a", "b", "c"], ["d", "e", "f"]]
      allRows := [["a", "b", "c"], ["d", "e", "f"]]
      table := { cols := [], rows := [["a", "b", "c"], ["d", "e", "f"]], cursor := 0,
                 focused := true, width := 100, height := 10 } }

theorem calcMaxLoop_eq_spec (width : Int) (l : List Column) (total count : Int) :
    calcMaxLoop width l total count = count + specVisibleCount (width - total) l := by
  induction l generalizing total count with
  | nil => simp [calcMaxLoop, specVisibleCount]
  | cons c rest ih =>
    simp only [calcMaxLoop, specVisibleCount]
    by_cases h : total + c.width + 2 > width
    · rw [if_pos h, if_pos (by omega)]
      omega
    · rw [if_neg h, if_neg (by omega), ih]
      have harg : width - (total + c.width + 2) = width - total - (c.width + 2) := by ring
      rw [harg]
      push_cast
      omega

theorem calcMaxLoop_le_length (width : Int) (l : List Column) (total count : Int) :
    calcMaxLoop width l total count ≤ count + l.length := by
  induction l generalizing total count with
  | nil => simp [calcMaxLoop]
  | cons c rest ih =>
    simp only [calcMaxLoop]
    split
    · simp; omega
    · calc calcMaxLoop width rest (total + c.width + 2) (count + 1)
          ≤ (count + 1) + rest.length := ih _ _
        _ ≤ count + (c :: rest).length := by simp; omega

/-- The visible-column count never reaches past the end of the schema:
`off + calcMaxColumns ≤ columnCount` whenever `0 ≤ off < columnCount`.
(Consequently the "pull left" branch of `UpdateVisibleColumns` can never
fire.) -/
theorem calcMaxColumns_add_le (cols : List Column) (off width : Int)
    (h0 : 0 ≤ off) (h1 : off < (cols.length : Int)) :
    off + calcMaxColumns cols off width ≤ (cols.length : Int) := by
  have hne : ¬ cols.isEmpty := by
    cases cols with
    | nil => simp at h1; omega
    | cons a l => simp
  have hdrop : ((cols.drop off.toNat).length : Int) = (cols.length : Int) - off := by
    rw [List.length_drop]
    omega
  have hloop := calcMaxLoop_le_length width (cols.drop off.toNat) 0 0
  simp only [calcMaxColumns, hne, if_false, Bool.false_eq_true]
  split
  · omega
  · omega

/-- `calcMaxColumns ≥ 1` when the (clamped) offset points at an existing column. -/
theorem one_le_calcMaxColumns (cols : List Column) (off width : Int)
    (h0 : 0 ≤ off) (h1 : off < (cols.length : Int)) :
    1 ≤ calcMaxColumns cols off width := by
  have hne : ¬ cols.isEmpty := by
    cases cols with
    | nil => simp at h1; omega
    | cons a l => simp
  have hloop := calcMaxLoop_eq_spec width (cols.drop off.toNat) 0 0
  simp only [calcMaxColumns, hne, if_false, Bool.false_eq_true]
  split
  · omega
  · rename_i hcond
    rw [not_and_or] at hcond
    rcases hcond with hc | hc
    · have : (0:Int) ≤ specVisibleCount (width - 0) (cols.drop off.toNat) := by positivity
      omega
    · omega

theorem specVisibleCount_sum (width : Int) (l : List Column) (hw : 0 ≤ width) :
    ((l.take (specVisibleCount width l)).map (fun c => c.width + 2)).sum ≤ width := by
  induction l generalizing width with
  | nil => simpa using hw
  | cons c rest ih =>
    simp only [specVisibleCount]
    split_ifs with h
    · simpa using hw
    · push_neg at h
      have hflip : (1 : Nat) + specVisibleCount (width - (c.width + 2)) rest =
          specVisibleCount (width - (c.width + 2)) rest + 1 := by omega
      rw [hflip, List.take_succ_cons, List.map_cons, List.sum_cons]
      have hih := ih (width - (c.width + 2)) (by omega)
      omega

theorem uvcOff_bounds (m : TableModel) (hc : 0 < m.tableColumns.length) :
    0 ≤ uvcOff m ∧ uvcOff m < (m.tableColumns.length : Int) := by
  simp only [uvcOff, clampI, Int.min_def, Int.max_def]
  split_ifs <;> omega

theorem keyMove_cols (t : Widget) (b : Bool) : (t.keyMove b).cols = t.cols := by
  unfold Widget.keyMove; split_ifs <;> rfl

theorem keyMove_rows (t : Widget) (b : Bool) : (t.keyMove b).rows = t.rows := by
  unfold Widget.keyMove; split_ifs <;> rfl

theorem keyMove_focused (t : Widget) (b : Bool) : (t.keyMove b).focused = t.focused := by
  unfold Widget.keyMove; split_ifs <;> rfl

theorem keyMove_width (t : Widget) (b : Bool) : (t.keyMove b).width = t.width := by
  unfold Widget.keyMove; split_ifs <;> rfl

theorem keyMove_height (t : Widget) (b : Bool) : (t.keyMove b).height = t.height := by
  unfold Widget.keyMove; split_ifs <;> rfl

theorem keyMove_cursor_focused (t : Widget) (b : Bool) (hf : t.focused = true) :
    (t.keyMove b).cursor = clampI (if b then t.cursor - 1 else t.cursor + 1) 0 (t.rows.length - 1) := by
  unfold Widget.keyMove; rw [if_pos hf]

theorem keyMove_unfocused (t : Widget) (b : Bool) (hf : t.focused = false) :
    t.keyMove b = t := by
  unfold Widget.keyMove; rw [hf]; simp

theorem keyMove_down_up (t : Widget)
    (hc : t.cursor = 0) (h1 : t.cursor < (t.rows.length : Int)) :
    (t.keyMove false).keyMove true = t := by
  cases hf : t.focused with
  | false => rw [keyMove_unfocused _ _ hf, keyMove_unfocused _ _ hf]
  | true =>
    ext1
    · rw [keyMove_cols, keyMove_cols]
    · rw [keyMove_rows, keyMove_rows]
    · rw [keyMove_cursor_focused _ _ (by rw [keyMove_focused]; exact hf),
        keyMove_rows, keyMove_cursor_focused _ _ hf]
      simp only [clampI, Int.min_def, Int.max_def, eq_self_iff_true, Bool.false_eq_true,
        if_true, if_false]
      split_ifs <;> omega
    · rw [keyMove_focused, keyMove_focused]
    · rw [keyMove_width, keyMove_width]
    · rw [keyMove_height, keyMove_height]

theorem keyMove_up_down (t : Widget)
    (h0 : 1 ≤ t.cursor) (h1 : t.cursor < (t.rows.length : Int)) :
    (t.keyMove true).keyMove false = t := by
  cases hf : t.focused with
  | false => rw [keyMove_unfocused _ _ hf, keyMove_unfocused _ _ hf]
  | true =>
    ext1
    · rw [keyMove_cols, keyMove_cols]
    · rw [keyMove_rows, keyMove_rows]
    · rw [keyMove_cursor_focused _ _ (by rw [keyMove_focused]; exact hf),
        keyMove_rows, keyMove_cursor_focused _ _ hf]
      simp only [clampI, Int.min_def, Int.max_def, eq_self_iff_true, Bool.false_eq_true,
        if_true, if_false]
      split_ifs <;> omega
    · rw [keyMove_focused, keyMove_focused]
    · rw [keyMove_width, keyMove_width]
    · rw [keyMove_height, keyMove_height]

theorem nudgeCursor_eq_self (m : TableModel)
    (h0 : 0 ≤ m.table.cursor) (h1 : m.table.cursor < (m.table.rows.length : Int)) :
    nudgeCursor m = m := by
  unfold nudgeCursor
  have hn : 0 < m.table.rows.length := by omega
  rw [if_pos hn]
  dsimp only
  split_ifs with hz hl
  · rw [keyMove_down_up m.table hz h1]
  · rw [keyMove_up_down m.table (by omega) h1]
  · rw [keyMove_up_down m.table (by omega) h1]

theorem nudgeCursor_empty (m : TableModel) (h : m.table.rows.length = 0) :
    nudgeCursor m = m := by
  unfold nudgeCursor
  rw [if_neg (by omega)]

theorem clampOff_eq (m : TableModel) : uvcClampOff m = { m with scrollOffset := uvcOff m } := by
  cases m
  simp only [uvcClampOff, uvcOff, clampI, TableModel.mk.injEq, and_true, true_and]
  simp only [Int.min_def, Int.max_def]
  split_ifs <;> omega

/-- The "pull left" adjustment inside `UpdateVisibleColumns` never fires:
at the clamped offset the freshly computed column count never overshoots. -/
theorem adjust_noop (m : TableModel) (hc : ¬ m.tableColumns.isEmpty) :
    uvcAdjustOff (calculateMaxColumnsM (uvcClampOff m)) =
      calculateMaxColumnsM (uvcClampOff m) := by
  have hlen : 0 < m.tableColumns.length := by
    cases h : m.tableColumns with
    | nil => rw [h] at hc; simp at hc
    | cons a l => simp [h]
  have hb := uvcOff_bounds m hlen
  have hadd := calcMaxColumns_add_le m.tableColumns (uvcOff m) m.width hb.1 hb.2
  rw [clampOff_eq]
  have h2 : calculateMaxColumnsM { m with scrollOffset := uvcOff m } =
      { m with scrollOffset := uvcOff m, maxColumns := uvcMax m } := rfl
  rw [h2]
  unfold uvcAdjustOff
  rw [if_neg]
  simp only [uvcMax] at *
  push_neg
  intro hpos
  omega

theorem uvc_eq (m : TableModel) (hc : ¬ m.tableColumns.isEmpty) :
    updateVisibleColumns m =
      nudgeCursor { m with scrollOffset := uvcOff m, maxColumns := uvcMax m, table := uvcT1 m } := by
  have hlen : 0 < m.tableColumns.length := by
    cases h : m.tableColumns with
    | nil => rw [h] at hc; simp at hc
    | cons a l => simp [h]
  have h1 := clampOff_eq m
  have h2 : calculateMaxColumnsM { m with scrollOffset := uvcOff m } =
      { m with scrollOffset := uvcOff m, maxColumns := uvcMax m } := rfl
  have hb := uvcOff_bounds m hlen
  have hadd := calcMaxColumns_add_le m.tableColumns (uvcOff m) m.width hb.1 hb.2
  have h3 : uvcAdjustOff { m with scrollOffset := uvcOff m, maxColumns := uvcMax m } =
      { m with scrollOffset := uvcOff m, maxColumns := uvcMax m } := by
    unfold uvcAdjustOff
    rw [if_neg]
    simp only [uvcMax] at *
    push_neg
    intro hpos
    omega
  have h4 : uvcRebuild { m with scrollOffset := uvcOff m, maxColumns := uvcMax m } =
      { m with scrollOffset := uvcOff m, maxColumns := uvcMax m, table := uvcT1 m } := rfl
  unfold updateVisibleColumns
  rw [if_neg hc, h1, h2, h3, h4]

theorem uvcT1_rows (m : TableModel) : (uvcT1 m).rows = uvcVisRows m := by
  unfold uvcT1 uvcT0 Widget.setCursor Widget.new
  split_ifs <;> rfl

theorem uvcT1_cursor (m : TableModel) (hrows : 0 < (uvcVisRows m).length) :
    (uvcT1 m).cursor = clampI m.table.cursor 0 (((uvcVisRows m).length : Int) - 1) := by
  unfold uvcT1 uvcT0 Widget.setCursor Widget.new
  rw [if_pos hrows]
  simp only [clampI, Int.min_def, Int.max_def]
  split_ifs <;> omega

theorem uvcVisRows_length (m : TableModel) :
    (uvcVisRows m).length = m.originalRows.length := by
  simp [uvcVisRows]

theorem nudge_table_rows (m : TableModel) : (nudgeCursor m).table.rows = m.table.rows := by
  unfold nudgeCursor
  dsimp only
  split_ifs <;> simp [keyMove_rows]

theorem nudge_nonTable (m : TableModel) :
    (nudgeCursor m).scrollOffset = m.scrollOffset ∧
    (nudgeCursor m).maxColumns = m.maxColumns ∧
    (nudgeCursor m).originalRows = m.originalRows ∧
    (nudgeCursor m).allRows = m.allRows ∧
    (nudgeCursor m).rowCount = m.rowCount ∧
    (nudgeCursor m).tableColumns = m.tableColumns ∧
    (nudgeCursor m).filterText = m.filterText ∧
    (nudgeCursor m).filteredRows = m.filteredRows ∧
    (nudgeCursor m).sortColumn = m.sortColumn ∧
    (nudgeCursor m).width = m.width := by
  unfold nudgeCursor
  dsimp only
  split_ifs <;> exact ⟨rfl, rfl, rfl, rfl, rfl, rfl, rfl, rfl, rfl, rfl⟩

/-- `UpdateVisibleColumns` only rewrites the widget, the scroll offset and
the visible-column count; every other model field survives the rebuild. -/
theorem uvc_fields (m : TableModel) :
    (updateVisibleColumns m).originalRows = m.originalRows ∧
    (updateVisibleColumns m).allRows = m.allRows ∧
    (updateVisibleColumns m).rowCount = m.rowCount ∧
    (updateVisibleColumns m).tableColumns = m.tableColumns ∧
    (updateVisibleColumns m).filterText = m.filterText ∧
    (updateVisibleColumns m).filteredRows = m.filteredRows ∧
    (updateVisibleColumns m).sortColumn = m.sortColumn ∧
    (updateVisibleColumns m).width = m.width := by
  unfold updateVisibleColumns
  split_ifs with h
  · exact ⟨rfl, rfl, rfl, rfl, rfl, rfl, rfl, rfl⟩
  · have hn := nudge_nonTable (uvcRebuild (uvcAdjustOff (calculateMaxColumnsM (uvcClampOff m))))
    have hr : ∀ x : TableModel,
        (uvcRebuild x).originalRows = x.originalRows ∧
        (uvcRebuild x).allRows = x.allRows ∧
        (uvcRebuild x).rowCount = x.rowCount ∧
        (uvcRebuild x).tableColumns = x.tableColumns ∧
        (uvcRebuild x).filterText = x.filterText ∧
        (uvcRebuild x).filteredRows = x.filteredRows ∧
        (uvcRebuild x).sortColumn = x.sortColumn ∧
        (uvcRebuild x).width = x.width := by
      intro x
      unfold uvcRebuild
      exact ⟨rfl, rfl, rfl, rfl, rfl, rfl, rfl, rfl⟩
    have ha : ∀ x : TableModel,
        (uvcAdjustOff x).originalRows = x.originalRows ∧
        (uvcAdjustOff x).allRows = x.allRows ∧
        (uvcAdjustOff x).rowCount = x.rowCount ∧
        (uvcAdjustOff x).tableColumns = x.tableColumns ∧
        (uvcAdjustOff x).filterText = x.filterText ∧
        (uvcAdjustOff x).filteredRows = x.filteredRows ∧
        (uvcAdjustOff x).sortColumn = x.sortColumn ∧
        (uvcAdjustOff x).width = x.width := by
      intro x
      unfold uvcAdjustOff
      split_ifs <;> exact ⟨rfl, rfl, rfl, rfl, rfl, rfl, rfl, rfl⟩
    obtain ⟨n1, n2, n3, n4, n5, n6, n7, n8, n9, n10⟩ := hn
    obtain ⟨r1, r2, r3, r4, r5, r6, r7, r8⟩ := hr (uvcAdjustOff (calculateMaxColumnsM (uvcClampOff m)))
    obtain ⟨a1, a2, a3, a4, a5, a6, a7, a8⟩ := ha (calculateMaxColumnsM (uvcClampOff m))
    refine ⟨?_, ?_, ?_, ?_, ?_, ?_, ?_, ?_⟩ <;>
      simp only [n3, n4, n5, n6, n7, n8, n9, n10, r1, r2, r3, r4, r5, r6, r7, r8,
        a1, a2, a3, a4, a5, a6, a7, a8] <;> rfl

theorem uvc_scrollOffset (m : TableModel) (hc : ¬ m.tableColumns.isEmpty) :
    (updateVisibleColumns m).scrollOffset = uvcOff m := by
  rw [uvc_eq m hc, (nudge_nonTable _).1]

theorem uvc_maxColumns (m : TableModel) (hc : ¬ m.tableColumns.isEmpty) :
    (updateVisibleColumns m).maxColumns = uvcMax m := by
  rw [uvc_eq m hc, (nudge_nonTable _).2.1]

theorem uvc_table_rows (m : TableModel) (hc : ¬ m.tableColumns.isEmpty) :
    (updateVisibleColumns m).table.rows = uvcVisRows m := by
  rw [uvc_eq m hc, nudge_table_rows]
  exact uvcT1_rows m

theorem ensure_nonTable (m : TableModel) :
    (ensureCursorVisible m).scrollOffset = m.scrollOffset ∧
    (ensureCursorVisible m).maxColumns = m.maxColumns ∧
    (ensureCursorVisible m).originalRows = m.originalRows ∧
    (ensureCursorVisible m).allRows = m.allRows := by
  unfold ensureCursorVisible
  dsimp only
  split_ifs <;> exact ⟨rfl, rfl, rfl, rfl⟩

/-- From the last offset exactly one column is counted (it fits, or the
single-column fallback forces 1). -/
theorem calcMaxColumns_last (cols : List Column) (width : Int) (hc : cols ≠ []) :
    calcMaxColumns cols ((cols.length : Int) - 1) width = 1 := by
  have hlen : 0 < cols.length := List.length_pos.mpr hc
  have hd : ((cols.length : Int) - 1).toNat = cols.length - 1 := by omega
  have hlen1 : (cols.drop (cols.length - 1)).length = 1 := by
    rw [List.length_drop]; omega
  obtain ⟨c, hcc⟩ := List.length_eq_one.mp hlen1
  have hne : ¬ cols.isEmpty := by simpa using hc
  unfold calcMaxColumns
  rw [if_neg hne, hd, hcc]
  unfold calcMaxLoop calcMaxLoop
  dsimp only
  split_ifs <;> omega

theorem one_le_uvcVisCols_length (m : TableModel) (hc : 0 < m.tableColumns.length) :
    1 ≤ (uvcVisCols m).length := by
  have hb := uvcOff_bounds m hc
  have hmc := one_le_calcMaxColumns m.tableColumns (uvcOff m) m.width hb.1 hb.2
  simp only [uvcVisCols, List.length_take, List.length_drop, uvcNcols, uvcMax] at *
  omega

theorem uvcOff_toNat_lt (m : TableModel) (hc : 0 < m.tableColumns.length) :
    (uvcOff m).toNat < m.tableColumns.length := by
  have hb := uvcOff_bounds m hc
  omega

theorem sliceRow_length_of_lt (off ncols : Nat) (row : Row) (h : off < row.length) :
    (sliceRow off ncols row).length = ncols := by
  simp [sliceRow, h]

theorem clampI_mem (v lo hi : Int) (h : lo ≤ hi) :
    lo ≤ clampI v lo hi ∧ clampI v lo hi ≤ hi := by
  simp only [clampI, Int.min_def, Int.max_def]
  split_ifs <;> omega

theorem ensureCursorVisible_eq_self (m : TableModel)
    (h0 : 0 ≤ m.table.cursor) (h1 : m.table.cursor < (m.table.rows.length : Int))
    (hsel : m.table.selectedRow ≠ []) :
    ensureCursorVisible m = m := by
  unfold ensureCursorVisible
  dsimp only
  rw [if_neg (by omega), if_neg (by omega), if_neg (by omega),
    if_neg (fun h => hsel (List.length_eq_zero.mp h))]

theorem uvc_result (m : TableModel) (hc : ¬ m.tableColumns.isEmpty)
    (hr : m.originalRows ≠ []) :
    updateVisibleColumns m =
      { m with scrollOffset := uvcOff m, maxColumns := uvcMax m, table := uvcT1 m } := by
  have hrpos : 0 < m.originalRows.length := List.length_pos.mpr hr
  have hposVR : 0 < (uvcVisRows m).length := by rw [uvcVisRows_length]; omega
  have hcur := uvcT1_cursor m hposVR
  have hbounds := clampI_mem m.table.cursor 0 (((uvcVisRows m).length : Int) - 1) (by omega)
  rw [uvc_eq m hc]
  apply nudgeCursor_eq_self
  · show 0 ≤ (uvcT1 m).cursor
    omega
  · show (uvcT1 m).cursor < ((uvcT1 m).rows.length : Int)
    rw [uvcT1_rows]
    omega

theorem uvc_selectedRow_ne_nil (m : TableModel)
    (hlen : 0 < m.tableColumns.length)
    (hr : m.originalRows ≠ [])
    (hw : ∀ r ∈ m.originalRows, m.tableColumns.length ≤ r.length) :
    (uvcT1 m).selectedRow ≠ [] := by
  have hrpos : 0 < m.originalRows.length := List.length_pos.mpr hr
  have hposVR : 0 < (uvcVisRows m).length := by rw [uvcVisRows_length]; omega
  have hcur := uvcT1_cursor m hposVR
  have hbounds := clampI_mem m.table.cursor 0 (((uvcVisRows m).length : Int) - 1) (by omega)
  unfold Widget.selectedRow
  rw [uvcT1_rows, hcur, if_pos (by constructor <;> omega)]
  have hidx : (clampI m.table.cursor 0 (((uvcVisRows m).length : Int) - 1)).toNat <
      (uvcVisRows m).length := by omega
  set k := (clampI m.table.cursor 0 (((uvcVisRows m).length : Int) - 1)).toNat with hk
  have hklt : k < m.originalRows.length := by
    rw [uvcVisRows_length] at hidx; exact hidx
  have hmap : (uvcVisRows m).getD k [] =
      sliceRow (uvcOff m).toNat (uvcVisCols m).length (m.originalRows.getD k []) := by
    unfold uvcVisRows
    have hidx2 : k < (List.map (sliceRow (uvcOff m).toNat (uvcVisCols m).length)
        m.originalRows).length := by simpa using hklt
    rw [List.getD_eq_getElem _ _ hidx2, List.getD_eq_getElem _ _ hklt, List.getElem_map]
  rw [hmap]
  have hmem : m.originalRows.getD k [] ∈ m.originalRows := by
    rw [List.getD_eq_getElem _ _ hklt]
    exact List.getElem_mem _
  have hrowlen := hw _ hmem
  have hoff := uvcOff_toNat_lt m hlen
  have hslice := sliceRow_length_of_lt (uvcOff m).toNat (uvcVisCols m).length
    (m.originalRows.getD k []) (by omega)
  have hone := one_le_uvcVisCols_length m hlen
  intro hnil
  rw [hnil] at hslice
  simp at hslice
  omega

/-- C1: after every rebuild of the visible window (`UpdateVisibleColumns`,
the single rebuild path used by scroll, resize, sort, filter and reset),
whenever the visible row count is positive the selection cursor lies in
`[0, visibleRowCount)`, equals the pre-rebuild cursor clamped into that
range, the selected row resolves to a non-empty rendered row, and the
subsequent `EnsureCursorVisible` guard finds nothing to repair. -/
theorem claim1_rebuild_cursor_invariant (m : TableModel)
    (hc : m.tableColumns ≠ [])
    (hr : m.originalRows ≠ [])
    (hw : ∀ r ∈ m.originalRows, m.tableColumns.length ≤ r.length) :
    (updateVisibleColumns m).table.rows.length = m.originalRows.length ∧
    0 ≤ (updateVisibleColumns m).table.cursor ∧
    (updateVisibleColumns m).table.cursor < (m.originalRows.length : Int) ∧
    (updateVisibleColumns m).table.cursor =
      clampI m.table.cursor 0 ((m.originalRows.length : Int) - 1) ∧
    (updateVisibleColumns m).table.selectedRow ≠ [] ∧
    ensureCursorVisible (updateVisibleColumns m) = updateVisibleColumns m := by
  have hcE : ¬ m.tableColumns.isEmpty := by simpa using hc
  have hlen : 0 < m.tableColumns.length := List.length_pos.mpr hc
  have hrpos : 0 < m.originalRows.length := List.length_pos.mpr hr
  have hposVR : 0 < (uvcVisRows m).length := by rw [uvcVisRows_length]; omega
  have hres := uvc_result m hcE hr
  have hcur := uvcT1_cursor m hposVR
  have hvl := uvcVisRows_length m
  have hbounds := clampI_mem m.table.cursor 0 (((uvcVisRows m).length : Int) - 1) (by omega)
  have htab : (updateVisibleColumns m).table = uvcT1 m := by rw [hres]
  have hrows : (updateVisibleColumns m).table.rows.length = m.originalRows.length := by
    rw [htab, uvcT1_rows, hvl]
  have hcursor : (updateVisibleColumns m).table.cursor =
      clampI m.table.cursor 0 ((m.originalRows.length : Int) - 1) := by
    rw [htab, hcur, hvl]
  refine ⟨hrows, ?_, ?_, hcursor, ?_, ?_⟩
  · rw [hcursor]
    exact (clampI_mem _ _ _ (by omega)).1
  · rw [hcursor]
    have := clampI_mem m.table.cursor 0 ((m.originalRows.length : Int) - 1) (by omega)
    omega
  · rw [htab]
    exact uvc_selectedRow_ne_nil m hlen hr hw
  · apply ensureCursorVisible_eq_self
    · rw [hcursor]
      exact (clampI_mem _ _ _ (by omega)).1
    · rw [hcursor, hrows]
      have := clampI_mem m.table.cursor 0 ((m.originalRows.length : Int) - 1) (by omega)
      omega
    · rw [htab]
      exact uvc_selectedRow_ne_nil m hlen hr hw

theorem claim1_rebuild_cursor_invariant_w :
    (exState1.tableColumns ≠ [] ∧ exState1.originalRows ≠ [] ∧
      ∀ r ∈ exState1.originalRows, exState1.tableColumns.length ≤ r.length) ∧
    (updateVisibleColumns exState1).table.cursor =
      clampI exState1.table.cursor 0 ((exState1.originalRows.length : Int) - 1) ∧
    (updateVisibleColumns exState1).table.selectedRow ≠ [] := by
  have h := claim1_rebuild_cursor_invariant exState1 (by decide) (by decide) (by decide)
  exact ⟨⟨by decide, by decide, by decide⟩, h.2.2.2.1, h.2.2.2.2.1⟩

/-- C3: for every column schema, scroll offset and available width, the
computed visible-column count equals the spec's accumulate-until-overflow
count, except that when that count is zero and a column exists at the offset
it is forced to 1; consequently the window's summed width (display width plus
padding) stays within the available width, or the window has exactly one
column. -/
theorem claim3_visible_column_count (cols : List Column) (off width : Int) :
    (calcMaxColumns cols off width =
      if cols = [] then 0
      else if specVisibleCount width (cols.drop off.toNat) = 0 ∧ off < (cols.length : Int) then 1
      else (specVisibleCount width (cols.drop off.toNat) : Int)) ∧
    (0 ≤ width →
      ((((cols.drop off.toNat).take (calcMaxColumns cols off width).toNat).map
          (fun c => c.width + 2)).sum ≤ width ∨
        calcMaxColumns cols off width = 1)) := by
  have hchar : calcMaxColumns cols off width =
      if cols = [] then 0
      else if specVisibleCount width (cols.drop off.toNat) = 0 ∧ off < (cols.length : Int) then 1
      else (specVisibleCount width (cols.drop off.toNat) : Int) := by
    unfold calcMaxColumns
    by_cases hnil : cols = []
    · simp [hnil]
    · have hne : ¬ cols.isEmpty := by simpa using hnil
      rw [if_neg hne, if_neg hnil, calcMaxLoop_eq_spec]
      have hz : width - 0 = width := by ring
      rw [hz]
      by_cases hc : specVisibleCount width (cols.drop off.toNat) = 0 ∧ off < (cols.length : Int)
      · rw [if_pos (by omega), if_pos hc]
      · rw [if_neg (by omega), if_neg hc]
        omega
  refine ⟨hchar, fun hw => ?_⟩
  rw [hchar]
  by_cases hnil : cols = []
  · left
    simp only [hnil, if_pos rfl, Int.toNat_zero, List.take_zero, List.drop_nil, List.map_nil,
      List.sum_nil]
    exact hw
  · by_cases hc : specVisibleCount width (cols.drop off.toNat) = 0 ∧ off < (cols.length : Int)
    · right
      simp [hnil, hc]
    · left
      rw [if_neg hnil, if_neg hc]
      have hcast : ((specVisibleCount width (cols.drop off.toNat) : Int)).toNat =
          specVisibleCount width (cols.drop off.toNat) := by omega
      rw [hcast]
      exact specVisibleCount_sum width (cols.drop off.toNat) hw

theorem decLt_eq (a b : Dec) : decLt a b = decide (decValue a < decValue b) := by
  unfold decLt decValue
  rw [decide_eq_decide]
  set m := min a.exp b.exp with hm
  have hten : (10 : Rat) ≠ 0 := by norm_num
  have ha : ((a.exp - m).toNat : Int) = a.exp - m := Int.toNat_of_nonneg (by omega)
  have hb : ((b.exp - m).toNat : Int) = b.exp - m := Int.toNat_of_nonneg (by omega)
  have hcast : (a.num * 10 ^ (a.exp - m).toNat < b.num * 10 ^ (b.exp - m).toNat) ↔
      ((a.num * 10 ^ (a.exp - m).toNat : Int) : Rat) <
        ((b.num * 10 ^ (b.exp - m).toNat : Int) : Rat) := by
    exact_mod_cast Iff.rfl
  rw [hcast]
  push_cast
  rw [← zpow_natCast (10 : Rat) (a.exp - m).toNat, ← zpow_natCast (10 : Rat) (b.exp - m).toNat,
    ha, hb, zpow_sub₀ hten, zpow_sub₀ hten, mul_div_assoc', mul_div_assoc']
  exact div_lt_div_iff_of_pos_right (zpow_pos (by norm_num) m)

set_option maxRecDepth 4096 in
/-- C2 (code-bug evidence): `SortRows` delegates to Go's `sort.Slice`
(pdqsort), which is not a stable sort.  On the spec's 3-row example the
small-range insertion sort happens to preserve ties, but on a 13-row input
with duplicate keys in the sort column the tied rows are reordered: the rows
with key "1" (second cells 2,4,7,8,10,11 in baseline order) come out in
order 7,11,2,10,4,8, so the stability the spec requires is violated. -/
theorem claim2_sort_slice_unstable :
    goSortRows [["1", "Alice", "30"], ["2", "bob", "25"], ["3", "Cara", "25"]] 2 true =
      [["2", "bob", "25"], ["3", "Cara", "25"], ["1", "Alice", "30"]] ∧
    goSortRows
      [["2", "0"], ["2", "1"], ["1", "2"], ["2", "3"], ["1", "4"], ["2", "5"], ["2", "6"],
        ["1", "7"], ["1", "8"], ["2", "9"], ["1", "10"], ["1", "11"], ["2", "12"]] 0 true =
      [["1", "7"], ["1", "11"], ["1", "2"], ["1", "10"], ["1", "4"], ["1", "8"], ["2", "6"],
        ["2", "0"], ["2", "5"], ["2", "9"], ["2", "3"], ["2", "1"], ["2", "12"]] ∧
    ([["1", "7"], ["1", "11"], ["1", "2"], ["1", "10"], ["1", "4"], ["1", "8"], ["2", "6"],
       ["2", "0"], ["2", "5"], ["2", "9"], ["2", "3"], ["2", "1"], ["2", "12"]] : List Row) ≠
      [["1", "2"], ["1", "4"], ["1", "7"], ["1", "8"], ["1", "10"], ["1", "11"], ["2", "0"],
        ["2", "1"], ["2", "3"], ["2", "5"], ["2", "6"], ["2", "9"], ["2", "12"]] :=
  ⟨by decide, by decide, by decide⟩

/-- C5: the sort comparator compares numerically exactly when both cells
parse as numbers and lexically (case-sensitively) otherwise; the descending
direction is the flipped comparator, not a transformation of the input; and
`SortRows` with a negative sort column is a no-op on the model state. -/
theorem claim5_comparator_spec :
    (∀ (a b : String) (x y : Dec), parseFloat a = some x → parseFloat b = some y →
      ∀ asc, cellLess asc a b =
        if asc then decide (decValue x < decValue y) else decide (decValue y < decValue x)) ∧
    (∀ a b : String, parseFloat a = none ∨ parseFloat b = none →
      ∀ asc, cellLess asc a b =
        if asc then strLt a.data b.data else strLt b.data a.data) ∧
    (∀ a b : String, cellLess false a b = cellLess true b a) ∧
    (∀ m : TableModel, m.sortColumn < 0 → sortRowsM m = m) := by
  refine ⟨?_, ?_, ?_, ?_⟩
  · intro a b x y hx hy asc
    unfold cellLess
    rw [hx, hy]
    cases asc <;> simp [decLt_eq]
  · intro a b h asc
    unfold cellLess
    rcases h with h | h
    · rw [h]
    · rw [h]
      rcases hpa : parseFloat a with _ | x <;> rfl
  · intro a b
    unfold cellLess
    rcases hpa : parseFloat a with _ | x <;> rcases hpb : parseFloat b with _ | y <;> rfl
  · intro m h
    unfold sortRowsM
    rw [if_pos h]

theorem claim5_comparator_spec_w :
    parseFloat "10" = some ⟨10, 0⟩ ∧ parseFloat "9" = some ⟨9, 0⟩ ∧ parseFloat "abc" = none ∧
    (cellLess true "10" "9" =
      if true then decide (decValue ⟨10, 0⟩ < decValue ⟨9, 0⟩)
      else decide (decValue ⟨9, 0⟩ < decValue ⟨10, 0⟩)) ∧
    (cellLess true "abc" "abd" =
      if true then strLt "abc".data "abd".data else strLt "abd".data "abc".data) ∧
    cellLess false "abc" "abd" = cellLess true "abd" "abc" ∧
    exState1.sortColumn < 0 ∧ sortRowsM exState1 = exState1 :=
  ⟨by decide, by decide, by decide,
    claim5_comparator_spec.1 "10" "9" ⟨10, 0⟩ ⟨9, 0⟩ (by decide) (by decide) true,
    claim5_comparator_spec.2.1 "abc" "abd" (Or.inl (by decide)) true,
    claim5_comparator_spec.2.2.1 "abc" "abd",
    by decide,
    claim5_comparator_spec.2.2.2 exState1 (by decide)⟩

theorem claim3_visible_column_count_w :
    (0 : Int) ≤ 25 ∧
    (((((([⟨"A", 10⟩, ⟨"B", 20⟩] : List Column)).drop (Int.toNat 0)).take
        (calcMaxColumns [⟨"A", 10⟩, ⟨"B", 20⟩] 0 25).toNat).map
        (fun c => c.width + 2)).sum ≤ 25 ∨
      calcMaxColumns [⟨"A", 10⟩, ⟨"B", 20⟩] 0 25 = 1) := by
  have h := claim3_visible_column_count [⟨"A", 10⟩, ⟨"B", 20⟩] 0 25
  exact ⟨by decide, h.2 (by decide)⟩

theorem filterRows_ok (col : Int) (txt : String) (rows : List Row)
    (hcol : 0 ≤ col) (hlen : ∀ r ∈ rows, col < (r.length : Int)) :
    filterRows col txt rows =
      some (rows.filter (fun r => goContains (goToLower (r.getD col.toNat "")) txt)) := by
  induction rows with
  | nil => rfl
  | cons r rs ih =>
    have hr := hlen r (by simp)
    have hrs : ∀ x ∈ rs, col < (x.length : Int) := fun x hx => hlen x (by simp [hx])
    have hidx : goIndexStr r col = some (r.getD col.toNat "") := by
      unfold goIndexStr
      rw [if_pos ⟨hcol, hr⟩]
    simp only [filterRows, hidx, ih hrs, List.filter_cons]
    split <;> rfl

theorem applyFilter_originalRows (m : TableModel)
    (hcol : 0 ≤ m.sortColumn ∧ m.sortColumn < (m.tableColumns.length : Int))
    (hrows : ∀ r ∈ m.allRows, m.sortColumn < (r.length : Int))
    (hne : m.allRows ≠ []) :
    (applyFilterM m).map TableModel.originalRows =
      some (if m.filterText = "" then m.allRows
        else m.allRows.filter
          (fun r => goContains (goToLower (r.getD m.sortColumn.toNat ""))
            (goToLower m.filterText))) := by
  unfold applyFilterM
  by_cases ht : m.filterText = ""
  · rw [if_pos ht, if_pos (List.length_pos.mpr hne)]
    dsimp only [Option.map]
    rw [(uvc_fields { m with originalRows := m.allRows }).1, if_pos ht]
  · rw [if_neg ht, filterRows_ok m.sortColumn (goToLower m.filterText) m.allRows hcol.1 hrows]
    have hcolx : goIndexCol m.tableColumns m.sortColumn =
        some (m.tableColumns.getD m.sortColumn.toNat ⟨"", 0⟩) := by
      unfold goIndexCol
      rw [if_pos hcol]
    rw [hcolx]
    dsimp only [Option.map]
    rw [(uvc_fields _).1, if_neg ht]

/-- C4: filtering always starts from the baseline (`AllRows`): the empty
query restores the baseline unchanged, a non-empty query keeps exactly the
baseline rows whose cell in the active column contains the query
case-insensitively (a sublist, hence in baseline order), and the result is
independent of whatever `OriginalRows`/`FilteredRows` held before. -/
theorem claim4_filter_from_baseline (m : TableModel)
    (hcol : 0 ≤ m.sortColumn ∧ m.sortColumn < (m.tableColumns.length : Int))
    (hrows : ∀ r ∈ m.allRows, m.sortColumn < (r.length : Int))
    (hne : m.allRows ≠ []) :
    (applyFilterM m).isSome = true ∧
    (m.filterText = "" → (applyFilterM m).map TableModel.originalRows = some m.allRows) ∧
    (m.filterText ≠ "" → (applyFilterM m).map TableModel.originalRows =
      some (m.allRows.filter
        (fun r => goContains (goToLower (r.getD m.sortColumn.toNat ""))
          (goToLower m.filterText)))) ∧
    (∀ l, (applyFilterM m).map TableModel.originalRows = some l → l.Sublist m.allRows) ∧
    (∀ rows0 frows0,
      (applyFilterM { m with originalRows := rows0, filteredRows := frows0 }).map
          TableModel.originalRows =
        (applyFilterM m).map TableModel.originalRows) := by
  have hchar := applyFilter_originalRows m hcol hrows hne
  refine ⟨?_, ?_, ?_, ?_, ?_⟩
  · cases happ : applyFilterM m with
    | none => rw [happ] at hchar; simp at hchar
    | some m2 => rfl
  · intro ht
    rw [hchar, if_pos ht]
  · intro ht
    rw [hchar, if_neg ht]
  · intro l hl
    rw [hchar] at hl
    by_cases ht : m.filterText = ""
    · rw [if_pos ht] at hl
      cases hl
      exact List.Sublist.refl _
    · rw [if_neg ht] at hl
      cases hl
      exact List.filter_sublist _
  · intro rows0 frows0
    have hchar2 := applyFilter_originalRows
      { m with originalRows := rows0, filteredRows := frows0 } hcol hrows hne
    rw [hchar, hchar2]

theorem claim4_filter_from_baseline_w :
    ((0 : Int) ≤ exState4.sortColumn ∧
      exState4.sortColumn < (exState4.tableColumns.length : Int)) ∧
    (∀ r ∈ exState4.allRows, exState4.sortColumn < (r.length : Int)) ∧
    exState4.allRows ≠ [] ∧
    (applyFilterM exState4).map TableModel.originalRows =
      some (exState4.allRows.filter
        (fun r => goContains (goToLower (r.getD exState4.sortColumn.toNat ""))
          (goToLower exState4.filterText))) ∧
    (applyFilterM exState4).map TableModel.originalRows =
      some [["1", "Alice"], ["3", "Cara"]] := by
  have h := claim4_filter_from_baseline exState4 ⟨by decide, by decide⟩ (by decide) (by decide)
  exact ⟨⟨by decide, by decide⟩, by decide, by decide, h.2.2.1 (by decide), by decide⟩

/-- C6 counterexample: `ApplyFilter` indexes `row[SortColumn]` without a
bounds check, so on a state whose single baseline row is shorter than the
active column index the filter fails (Go: index panic; model: `none`) —
refuting "filter never fails on a row shorter than the active column
index". -/
theorem claim6_filter_short_row_fails : applyFilterM exState6 = none := by decide

/-- C6 amended: the window-slicing parts of the claim hold — after a rebuild
the scroll offset is clamped into range, the window never overshoots the
schema, every active row yields a visible row, rows entirely left of the
offset become nil, and cells past a short row's end render as `""` — but
sort and filter index the active column unchecked (see the counterexample). -/
theorem claim6_window_clamp_and_pad (m : TableModel) (hc : m.tableColumns ≠ []) :
    0 ≤ (updateVisibleColumns m).scrollOffset ∧
    (updateVisibleColumns m).scrollOffset < (m.tableColumns.length : Int) ∧
    (updateVisibleColumns m).scrollOffset + (updateVisibleColumns m).maxColumns ≤
      (m.tableColumns.length : Int) ∧
    (updateVisibleColumns m).table.rows.length = m.originalRows.length ∧
    (∀ i, i < m.originalRows.length →
      (updateVisibleColumns m).table.rows.getD i [] =
        sliceRow (uvcOff m).toNat (uvcVisCols m).length (m.originalRows.getD i [])) ∧
    (∀ off ncols (r : Row), r.length ≤ off → sliceRow off ncols r = []) ∧
    (∀ off ncols (r : Row) (j : Nat), off < r.length → j < ncols → r.length ≤ off + j →
      (sliceRow off ncols r).getD j "" = "") ∧
    (∀ off ncols (r : Row) (j : Nat), off < r.length → j < ncols → off + j < r.length →
      (sliceRow off ncols r).getD j "" = r.getD (off + j) "") := by
  have hcE : ¬ m.tableColumns.isEmpty := by simpa using hc
  have hlen : 0 < m.tableColumns.length := List.length_pos.mpr hc
  have hb := uvcOff_bounds m hlen
  have hadd := calcMaxColumns_add_le m.tableColumns (uvcOff m) m.width hb.1 hb.2
  have hoff := uvc_scrollOffset m hcE
  have hmax := uvc_maxColumns m hcE
  have hrows := uvc_table_rows m hcE
  refine ⟨?_, ?_, ?_, ?_, ?_, ?_, ?_, ?_⟩
  · rw [hoff]; exact hb.1
  · rw [hoff]; exact hb.2
  · rw [hoff, hmax]
    unfold uvcMax
    omega
  · rw [hrows, uvcVisRows_length]
  · intro i hi
    rw [hrows]
    unfold uvcVisRows
    have hi2 : i < (List.map (sliceRow (uvcOff m).toNat (uvcVisCols m).length)
        m.originalRows).length := by simpa using hi
    rw [List.getD_eq_getElem _ _ hi2, List.getD_eq_getElem _ _ hi, List.getElem_map]
  · intro off ncols r h
    unfold sliceRow
    rw [if_neg (by omega)]
  · intro off ncols r j h1 h2 h3
    unfold sliceRow
    rw [if_pos h1]
    have hj : j < ((List.range ncols).map (fun j => r.getD (off + j) "")).length := by
      simpa using h2
    rw [List.getD_eq_getElem _ _ hj, List.getElem_map, List.getElem_range]
    exact List.getD_eq_default _ _ (by omega)
  · intro off ncols r j h1 h2 h3
    unfold sliceRow
    rw [if_pos h1]
    have hj : j < ((List.range ncols).map (fun j => r.getD (off + j) "")).length := by
      simpa using h2
    rw [List.getD_eq_getElem _ _ hj, List.getElem_map, List.getElem_range]

theorem claim6_window_clamp_and_pad_w :
    exState1.tableColumns ≠ [] ∧
    0 ≤ (updateVisibleColumns exState1).scrollOffset ∧
    (updateVisibleColumns exState1).scrollOffset +
        (updateVisibleColumns exState1).maxColumns ≤
      (exState1.tableColumns.length : Int) ∧
    sliceRow 0 2 ["a"] = ["a", ""] ∧ sliceRow 1 2 ["a"] = [] := by
  have h := claim6_window_clamp_and_pad exState1 (by decide)
  exact ⟨by decide, h.1, h.2.2.1, by decide, by decide⟩

/-- C7 counterexample: with three columns that all fit (the computed visible
count at offset 0 is 3), the claim's formula `max(0, columnCount −
visibleColumnCount)` gives 0, but the End handler lands on offset 2 showing
a one-column window — the rightmost columns that fit are *not* all kept
visible. -/
theorem claim7_end_formula_refuted :
    (endKey exState7).scrollOffset = 2 ∧
    max 0 ((exState7.tableColumns.length : Int) - exState7.maxColumns) = 0 ∧
    (endKey exState7).scrollOffset ≠
      max 0 ((exState7.tableColumns.length : Int) - exState7.maxColumns) ∧
    (endKey exState7).maxColumns = 1 ∧
    calcMaxColumns exState7.tableColumns 0 exState7.width = 3 := by
  exact ⟨by decide, by decide, by decide, by decide, by decide⟩

/-- C7 amended: Home sets the offset to 0; End sets it to `columnCount − 1`
(not `columnCount − visibleColumnCount`) and the rebuilt window then shows
exactly one column; and the leftward pull of `UpdateVisibleColumns` never
fires at all. -/
theorem claim7_home_end (m : TableModel) (hc : m.tableColumns ≠ [])
    (h0 : 0 ≤ m.scrollOffset)
    (hne : m.scrollOffset ≠ (m.tableColumns.length : Int) - 1) :
    (homeKey m).scrollOffset = 0 ∧
    (endKey m).scrollOffset = (m.tableColumns.length : Int) - 1 ∧
    (endKey m).maxColumns = 1 ∧
    (∀ m2 : TableModel, ¬ m2.tableColumns.isEmpty →
      uvcAdjustOff (calculateMaxColumnsM (uvcClampOff m2)) =
        calculateMaxColumnsM (uvcClampOff m2)) := by
  have hcE : ¬ m.tableColumns.isEmpty := by simpa using hc
  have hlen : 0 < m.tableColumns.length := List.length_pos.mpr hc
  refine ⟨?_, ?_, ?_, fun m2 hm2 => adjust_noop m2 hm2⟩
  · unfold homeKey
    split_ifs with hp
    · rw [(ensure_nonTable _).1]
      show (updateVisibleColumns { m with scrollOffset := 0 }).scrollOffset = 0
      rw [uvc_scrollOffset { m with scrollOffset := 0 } hcE]
      unfold uvcOff clampI
      simp only [Int.min_def, Int.max_def]
      split_ifs <;> omega
    · omega
  · unfold endKey
    dsimp only
    rw [if_pos (by omega)]
    rw [(ensure_nonTable _).1]
    show (updateVisibleColumns
        { m with scrollOffset :=
            if (m.tableColumns.length : Int) - 1 < 0 then 0
            else (m.tableColumns.length : Int) - 1 }).scrollOffset = _
    rw [uvc_scrollOffset
      { m with scrollOffset :=
          if (m.tableColumns.length : Int) - 1 < 0 then 0
          else (m.tableColumns.length : Int) - 1 } hcE]
    unfold uvcOff clampI
    simp only [Int.min_def, Int.max_def]
    split_ifs <;> omega
  · unfold endKey
    dsimp only
    rw [if_pos (by omega)]
    rw [(ensure_nonTable _).2.1]
    show (updateVisibleColumns
        { m with scrollOffset :=
            if (m.tableColumns.length : Int) - 1 < 0 then 0
            else (m.tableColumns.length : Int) - 1 }).maxColumns = 1
    rw [uvc_maxColumns
      { m with scrollOffset :=
          if (m.tableColumns.length : Int) - 1 < 0 then 0
          else (m.tableColumns.length : Int) - 1 } hcE]
    unfold uvcMax uvcOff clampI
    have hoffeq : min (max (if (m.tableColumns.length : Int) - 1 < 0 then 0
        else (m.tableColumns.length : Int) - 1) 0) ((m.tableColumns.length : Int) - 1) =
        (m.tableColumns.length : Int) - 1 := by
      simp only [Int.min_def, Int.max_def]
      split_ifs <;> omega
    rw [hoffeq]
    exact calcMaxColumns_last m.tableColumns m.width hc

theorem claim7_home_end_w :
    exState7.tableColumns ≠ [] ∧ (0 : Int) ≤ exState7.scrollOffset ∧
    exState7.scrollOffset ≠ (exState7.tableColumns.length : Int) - 1 ∧
    (homeKey exState7).scrollOffset = 0 ∧
    (endKey exState7).scrollOffset = (exState7.tableColumns.length : Int) - 1 ∧
    (endKey exState7).maxColumns = 1 := by
  have h := claim7_home_end exState7 (by decide) (by decide) (by decide)
  exact ⟨by decide, by decide, by decide, h.1, h.2.1, h.2.2.1⟩

theorem mk_data (s : String) : String.mk s.data = s := rfl

theorem cleanF_cons (c : Char) (cs : List Char) (h : cleanF (c :: cs) = true) :
    (c ≠ ',' ∧ c ≠ '"' ∧ c ≠ '\n') ∧ cleanF cs = true := by
  constructor
  · refine ⟨?_, ?_, ?_⟩ <;> intro hcc <;> subst hcc <;> simp [cleanF, needsQuote] at h
  · simp only [cleanF, needsQuote, List.any_cons, Bool.not_or, Bool.and_eq_true] at h
    simp only [cleanF, needsQuote]
    exact h.2

theorem parse_unquoted (s rest f : List Char) (r : List String)
    (hclean : cleanF s = true) :
    parseAux (s ++ rest) .normal f r = parseAux rest .normal (f ++ s) r := by
  induction s generalizing f with
  | nil => simp
  | cons c cs ih =>
    obtain ⟨⟨h1, h2, h3⟩, hcs⟩ := cleanF_cons c cs hclean
    show parseAux (c :: (cs ++ rest)) .normal f r = _
    rw [show parseAux (c :: (cs ++ rest)) .normal f r =
        (if c = ',' then parseAux (cs ++ rest) .normal [] (r ++ [String.mk f])
         else if c = '\n' then (r ++ [String.mk f]) :: parseAux (cs ++ rest) .normal [] []
         else if c = '"' ∧ f.isEmpty then parseAux (cs ++ rest) .quoted [] r
         else parseAux (cs ++ rest) .normal (f ++ [c]) r) from rfl]
    rw [if_neg h1, if_neg h3, if_neg (by intro hx; exact h2 hx.1), ih (f ++ [c]) hcs]
    simp

theorem parse_quoted (s : List Char) (rest f : List Char) (r : List String) :
    parseAux (escQ s ++ '"' :: rest) .quoted f r =
      parseAux rest .quotedQuote (f ++ s) r := by
  induction s generalizing f with
  | nil =>
    show parseAux ('"' :: rest) .quoted f r = _
    rw [show parseAux ('"' :: rest) .quoted f r =
        (if ('"' : Char) = '"' then parseAux rest .quotedQuote f r
         else parseAux rest .quoted (f ++ ['"']) r) from rfl]
    simp
  | cons c cs ih =>
    by_cases hc : c = '"'
    · subst hc
      show parseAux ('"' :: '"' :: (escQ cs ++ '"' :: rest)) .quoted f r = _
      rw [show parseAux ('"' :: '"' :: (escQ cs ++ '"' :: rest)) .quoted f r =
          parseAux ('"' :: (escQ cs ++ '"' :: rest)) .quotedQuote f r from by
        rw [show parseAux ('"' :: '"' :: (escQ cs ++ '"' :: rest)) .quoted f r =
            (if ('"' : Char) = '"' then parseAux ('"' :: (escQ cs ++ '"' :: rest)) .quotedQuote f r
             else parseAux ('"' :: (escQ cs ++ '"' :: rest)) .quoted (f ++ ['"']) r) from rfl]
        simp]
      rw [show parseAux ('"' :: (escQ cs ++ '"' :: rest)) .quotedQuote f r =
          (if ('"' : Char) = '"' then parseAux (escQ cs ++ '"' :: rest) .quoted (f ++ ['"']) r
           else if ('"' : Char) = ',' then
             parseAux (escQ cs ++ '"' :: rest) .normal [] (r ++ [String.mk f])
           else if ('"' : Char) = '\n' then
             (r ++ [String.mk f]) :: parseAux (escQ cs ++ '"' :: rest) .normal [] []
           else parseAux (escQ cs ++ '"' :: rest) .normal (f ++ ['"']) r) from rfl]
      rw [if_pos rfl, ih (f ++ ['"'])]
      simp
    · show parseAux (escQ (c :: cs) ++ '"' :: rest) .quoted f r = _
      rw [show escQ (c :: cs) = c :: escQ cs from by simp [escQ, hc]]
      show parseAux (c :: (escQ cs ++ '"' :: rest)) .quoted f r = _
      rw [show parseAux (c :: (escQ cs ++ '"' :: rest)) .quoted f r =
          (if c = '"' then parseAux (escQ cs ++ '"' :: rest) .quotedQuote f r
           else parseAux (escQ cs ++ '"' :: rest) .quoted (f ++ [c]) r) from rfl]
      rw [if_neg hc, ih (f ++ [c])]
      simp

theorem parse_field_comma (cell rest : List Char) (r : List String) :
    parseAux (renderField cell ++ ',' :: rest) .normal [] r =
      parseAux rest .normal [] (r ++ [String.mk cell]) := by
  unfold renderField
  by_cases hq : needsQuote cell = true
  · rw [if_pos hq]
    show parseAux ('"' :: ((escQ cell ++ ['"']) ++ ',' :: rest)) .normal [] r = _
    rw [show parseAux ('"' :: ((escQ cell ++ ['"']) ++ ',' :: rest)) .normal [] r =
        parseAux ((escQ cell ++ ['"']) ++ ',' :: rest) .quoted [] r from by
      rw [show parseAux ('"' :: ((escQ cell ++ ['"']) ++ ',' :: rest)) .normal [] r =
          (if ('"' : Char) = ',' then
            parseAux ((escQ cell ++ ['"']) ++ ',' :: rest) .normal [] (r ++ [String.mk []])
           else if ('"' : Char) = '\n' then
            (r ++ [String.mk []]) :: parseAux ((escQ cell ++ ['"']) ++ ',' :: rest) .normal [] []
           else if ('"' : Char) = '"' ∧ (List.nil (α := Char)).isEmpty then
            parseAux ((escQ cell ++ ['"']) ++ ',' :: rest) .quoted [] r
           else parseAux ((escQ cell ++ ['"']) ++ ',' :: rest) .normal ([] ++ ['"']) r) from rfl]
      simp]
    rw [show (escQ cell ++ ['"']) ++ ',' :: rest = escQ cell ++ '"' :: (',' :: rest) from by
      simp]
    rw [parse_quoted cell (',' :: rest) [] r]
    rw [show parseAux (',' :: rest) .quotedQuote ([] ++ cell) r =
        (if (',' : Char) = '"' then parseAux rest .quoted (([] ++ cell) ++ ['"']) r
         else if (',' : Char) = ',' then
           parseAux rest .normal [] (r ++ [String.mk ([] ++ cell)])
         else if (',' : Char) = '\n' then
           (r ++ [String.mk ([] ++ cell)]) :: parseAux rest .normal [] []
         else parseAux rest .normal (([] ++ cell) ++ [',']) r) from rfl]
    simp
  · rw [if_neg hq]
    rw [parse_unquoted cell (',' :: rest) [] r (by simp [cleanF, hq])]
    rw [show parseAux (',' :: rest) .normal ([] ++ cell) r =
        (if (',' : Char) = ',' then parseAux rest .normal [] (r ++ [String.mk ([] ++ cell)])
         else if (',' : Char) = '\n' then
           (r ++ [String.mk ([] ++ cell)]) :: parseAux rest .normal [] []
         else if (',' : Char) = '"' ∧ (([] : List Char) ++ cell).isEmpty then
           parseAux rest .quoted [] r
         else parseAux rest .normal (([] ++ cell) ++ [',']) r) from rfl]
    simp

theorem parse_field_newline (cell rest : List Char) (r : List String) :
    parseAux (renderField cell ++ '\n' :: rest) .normal [] r =
      (r ++ [String.mk cell]) :: parseAux rest .normal [] [] := by
  unfold renderField
  by_cases hq : needsQuote cell = true
  · rw [if_pos hq]
    show parseAux ('"' :: ((escQ cell ++ ['"']) ++ '\n' :: rest)) .normal [] r = _
    rw [show parseAux ('"' :: ((escQ cell ++ ['"']) ++ '\n' :: rest)) .normal [] r =
        parseAux ((escQ cell ++ ['"']) ++ '\n' :: rest) .quoted [] r from by
      rw [show parseAux ('"' :: ((escQ cell ++ ['"']) ++ '\n' :: rest)) .normal [] r =
          (if ('"' : Char) = ',' then
            parseAux ((escQ cell ++ ['"']) ++ '\n' :: rest) .normal [] (r ++ [String.mk []])
           else if ('"' : Char) = '\n' then
            (r ++ [String.mk []]) :: parseAux ((escQ cell ++ ['"']) ++ '\n' :: rest) .normal [] []
           else if ('"' : Char) = '"' ∧ (List.nil (α := Char)).isEmpty then
            parseAux ((escQ cell ++ ['"']) ++ '\n' :: rest) .quoted [] r
           else parseAux ((escQ cell ++ ['"']) ++ '\n' :: rest) .normal ([] ++ ['"']) r) from rfl]
      simp]
    rw [show (escQ cell ++ ['"']) ++ '\n' :: rest = escQ cell ++ '"' :: ('\n' :: rest) from by
      simp]
    rw [parse_quoted cell ('\n' :: rest) [] r]
    rw [show parseAux ('\n' :: rest) .quotedQuote ([] ++ cell) r =
        (if ('\n' : Char) = '"' then parseAux rest .quoted (([] ++ cell) ++ ['"']) r
         else if ('\n' : Char) = ',' then
           parseAux rest .normal [] (r ++ [String.mk ([] ++ cell)])
         else if ('\n' : Char) = '\n' then
           (r ++ [String.mk ([] ++ cell)]) :: parseAux rest .normal [] []
         else parseAux rest .normal (([] ++ cell) ++ ['\n']) r) from rfl]
    simp
  · rw [if_neg hq]
    rw [parse_unquoted cell ('\n' :: rest) [] r (by simp [cleanF, hq])]
    rw [show parseAux ('\n' :: rest) .normal ([] ++ cell) r =
        (if ('\n' : Char) = ',' then parseAux rest .normal [] (r ++ [String.mk ([] ++ cell)])
         else if ('\n' : Char) = '\n' then
           (r ++ [String.mk ([] ++ cell)]) :: parseAux rest .normal [] []
         else if ('\n' : Char) = '"' ∧ (([] : List Char) ++ cell).isEmpty then
           parseAux rest .quoted [] r
         else parseAux rest .normal (([] ++ cell) ++ ['\n']) r) from rfl]
    simp

theorem parse_line (cells : List String) (rest : List Char) (r : List String)
    (hne : cells ≠ []) :
    parseAux (renderLine (cells.map String.data) ++ '\n' :: rest) .normal [] r =
      (r ++ cells) :: parseAux rest .normal [] [] := by
  induction cells generalizing r with
  | nil => exact absurd rfl hne
  | cons x xs ih =>
    cases xs with
    | nil =>
      show parseAux (renderField x.data ++ '\n' :: rest) .normal [] r = _
      rw [parse_field_newline x.data rest r, mk_data]
    | cons y ys =>
      show parseAux ((renderField x.data ++ ',' :: renderLine ((y :: ys).map String.data)) ++
          '\n' :: rest) .normal [] r = _
      rw [show (renderField x.data ++ ',' :: renderLine ((y :: ys).map String.data)) ++
          '\n' :: rest =
          renderField x.data ++ ',' ::
            (renderLine ((y :: ys).map String.data) ++ '\n' :: rest) from by simp]
      rw [parse_field_comma x.data _ r, ih (r ++ [String.mk x.data]) (by simp)]
      rw [mk_data]
      simp

theorem parse_header (titles : List String) (rest : List Char) (r : List String)
    (hne : titles ≠ []) (hclean : ∀ t ∈ titles, cleanF t.data = true) :
    parseAux (joinComma (titles.map String.data) ++ '\n' :: rest) .normal [] r =
      (r ++ titles) :: parseAux rest .normal [] [] := by
  induction titles generalizing r with
  | nil => exact absurd rfl hne
  | cons x xs ih =>
    cases xs with
    | nil =>
      show parseAux (x.data ++ '\n' :: rest) .normal [] r = _
      rw [parse_unquoted x.data ('\n' :: rest) [] r (hclean x (by simp))]
      rw [show parseAux ('\n' :: rest) .normal ([] ++ x.data) r =
          (if ('\n' : Char) = ',' then
            parseAux rest .normal [] (r ++ [String.mk ([] ++ x.data)])
           else if ('\n' : Char) = '\n' then
            (r ++ [String.mk ([] ++ x.data)]) :: parseAux rest .normal [] []
           else if ('\n' : Char) = '"' ∧ (([] : List Char) ++ x.data).isEmpty then
            parseAux rest .quoted [] r
           else parseAux rest .normal (([] ++ x.data) ++ ['\n']) r) from rfl]
      simp [mk_data]
    | cons y ys =>
      show parseAux ((x.data ++ ',' :: joinComma ((y :: ys).map String.data)) ++
          '\n' :: rest) .normal [] r = _
      rw [show (x.data ++ ',' :: joinComma ((y :: ys).map String.data)) ++ '\n' :: rest =
          x.data ++ ',' :: (joinComma ((y :: ys).map String.data) ++ '\n' :: rest) from by simp]
      rw [parse_unquoted x.data _ [] r (hclean x (by simp))]
      rw [show parseAux (',' :: (joinComma ((y :: ys).map String.data) ++ '\n' :: rest))
          .normal ([] ++ x.data) r =
          parseAux (joinComma ((y :: ys).map String.data) ++ '\n' :: rest) .normal []
            (r ++ [String.mk ([] ++ x.data)]) from by
        rw [show parseAux (',' :: (joinComma ((y :: ys).map String.data) ++ '\n' :: rest))
            .normal ([] ++ x.data) r =
            (if (',' : Char) = ',' then
              parseAux (joinComma ((y :: ys).map String.data) ++ '\n' :: rest) .normal []
                (r ++ [String.mk ([] ++ x.data)])
             else if (',' : Char) = '\n' then
              (r ++ [String.mk ([] ++ x.data)]) ::
                parseAux (joinComma ((y :: ys).map String.data) ++ '\n' :: rest) .normal [] []
             else if (',' : Char) = '"' ∧ (([] : List Char) ++ x.data).isEmpty then
              parseAux (joinComma ((y :: ys).map String.data) ++ '\n' :: rest) .quoted [] r
             else parseAux (joinComma ((y :: ys).map String.data) ++ '\n' :: rest) .normal
                (([] ++ x.data) ++ [',']) r) from rfl]
        simp]
      rw [ih (r ++ [String.mk ([] ++ x.data)]) (by simp)
        (fun t ht => hclean t (List.mem_cons_of_mem _ ht))]
      simp [mk_data]

theorem parse_rows (rows : List Row) (hrows : ∀ r ∈ rows, r ≠ []) :
    parseAux (renderCSV (rows.map (fun r => renderLine (r.map String.data))))
      .normal [] [] = rows := by
  induction rows with
  | nil => rfl
  | cons r rs ih =>
    show parseAux (renderLine (r.map String.data) ++ '\n' ::
        renderCSV (rs.map (fun x => renderLine (x.map String.data)))) .normal [] [] = _
    rw [parse_line r _ [] (hrows r (by simp)),
      ih (fun x hx => hrows x (by simp [hx]))]
    simp

/-- C9 counterexample: header titles are written verbatim (`strings.Join`),
never quoted — exporting a single column titled `a,b` produces the bytes
`a,b\nx\n`, which contain no quote character at all, and re-parsing splits
the header into two fields instead of returning the original title. -/
theorem claim9_header_not_quoted :
    exportChars [⟨"a,b", 10⟩] [["x"]] = ("a,b\nx\n").data ∧
    ("a,b\nx\n").data.contains '"' = false ∧
    parseCSV (exportChars [⟨"a,b", 10⟩] [["x"]]) = [["a", "b"], ["x"]] ∧
    ([["a", "b"], ["x"]] : List (List String)) ≠ [["a,b"], ["x"]] :=
  ⟨by decide, by decide, by decide, by decide⟩

/-- C9 amended: export writes one header row (titles joined verbatim,
without quoting) and one row per active record with cells quoted as
described; re-parsing under standard CSV rules recovers every cell value
exactly — commas, quotes and embedded newlines included — and recovers the
header titles whenever they contain no delimiter, quote or newline. -/
theorem claim9_cell_quoting_roundtrip (cols : List Column) (rows : List Row)
    (hcols : cols ≠ [])
    (hclean : ∀ c ∈ cols, cleanF c.title.data = true)
    (hrows : ∀ r ∈ rows, r ≠ []) :
    parseCSV (exportChars cols rows) = (cols.map Column.title) :: rows := by
  unfold parseCSV exportChars exportLines renderCSV
  show parseAux (joinComma (cols.map (fun c => c.title.data)) ++ '\n' ::
      (rows.map (fun r => renderLine (r.map String.data))).foldr
        (fun l acc => l ++ '\n' :: acc) []) .normal [] [] = _
  have hmap : cols.map (fun c => c.title.data) = (cols.map Column.title).map String.data := by
    simp [List.map_map]
  have hcleanT : ∀ t ∈ cols.map Column.title, cleanF t.data = true := by
    intro t ht
    obtain ⟨c, hcmem, rfl⟩ := List.mem_map.mp ht
    exact hclean c hcmem
  rw [hmap, parse_header (cols.map Column.title) _ [] (by simpa using hcols) hcleanT]
  rw [show ((rows.map (fun r => renderLine (r.map String.data))).foldr
      (fun l acc => l ++ '\n' :: acc) []) =
      renderCSV (rows.map (fun r => renderLine (r.map String.data))) from rfl]
  rw [parse_rows rows hrows]
  simp

theorem claim9_cell_quoting_roundtrip_w :
    (([⟨"ID", 10⟩, ⟨"Name", 10⟩] : List Column) ≠ []) ∧
    (∀ c ∈ ([⟨"ID", 10⟩, ⟨"Name", 10⟩] : List Column), cleanF c.title.data = true) ∧
    (∀ r ∈ ([["a,b", "c\"d"], ["e\nf", ""]] : List Row), r ≠ []) ∧
    parseCSV (exportChars [⟨"ID", 10⟩, ⟨"Name", 10⟩] [["a,b", "c\"d"], ["e\nf", ""]]) =
      [["ID", "Name"], ["a,b", "c\"d"], ["e\nf", ""]] := by
  have h := claim9_cell_quoting_roundtrip [⟨"ID", 10⟩, ⟨"Name", 10⟩]
    [["a,b", "c\"d"], ["e\nf", ""]] (by decide) (by decide) (by decide)
  exact ⟨by decide, by decide, by decide, by rw [h]; rfl⟩

/-- C8 (code-bug evidence): `ShowTable` parses `metadata["QueryDuration"]`
unconditionally; an absent key reads as the zero value `""`, and
`time.ParseDuration("")` is an error, so the load fails even though the
metadata (per the field's own doc comment and the spec) is optional.
Present-but-unparsable values fail as the claim says, and parsable values
load. -/
theorem claim8_absent_duration_fails_load :
    goParseDuration "" = none ∧
    lookupGo [] "QueryDuration" = "" ∧
    showTableM ⟨"t", ["A"], [["x"]], []⟩ (some (80, 24)) = none ∧
    goParseDuration "abc" = none ∧
    showTableM ⟨"t", ["A"], [["x"]], [("QueryDuration", "abc")]⟩ (some (80, 24)) = none ∧
    goParseDuration "1.5s" = some 1500000000 ∧
    (showTableM ⟨"t", ["A"], [["x"]], [("QueryDuration", "1s")]⟩ (some (80, 24))).isSome =
      true :=
  ⟨by decide, by decide, by decide, by decide, by decide, by decide, by decide⟩

/-- C10: loading a dataset with zero data rows installs exactly one
placeholder row whose every cell is `"无数据"` as the active dataset, while
the reported row count stays 0; the placeholder behaves as an ordinary row —
the rebuilt widget holds it, the cursor selects it (resolving to non-empty
content), and the CSV export emits it after the header line. -/
theorem claim10_placeholder_row (data : TableData) (ts : Option (Int × Int))
    (hhead : data.headers ≠ [])
    (hrows : data.rows = [])
    (d : Int) (hdur : goParseDuration (lookupGo data.metadata "QueryDuration") = some d) :
    ∃ m, showTableM data ts = some m ∧
      m.originalRows = [List.replicate data.headers.length "无数据"] ∧
      m.allRows = [List.replicate data.headers.length "无数据"] ∧
      m.rowCount = 0 ∧
      m.table.rows.length = 1 ∧
      m.table.cursor = 0 ∧
      m.table.selectedRow ≠ [] ∧
      exportLines m.tableColumns m.originalRows =
        [joinComma (m.tableColumns.map (fun c => c.title.data)),
          renderLine ((List.replicate data.headers.length "无数据").map String.data)] := by
  have hhlen : 0 < data.headers.length := List.length_pos.mpr hhead
  unfold showTableM
  rw [hdur]
  dsimp only
  rw [hrows]
  dsimp only [List.foldl_nil, List.length_nil]
  rw [if_pos rfl]
  refine ⟨_, rfl, ?_⟩
  set cols := (List.range data.headers.length).map
    (fun i => Column.mk (data.headers.getD i "")
      ((clampWidth ((data.headers.map (fun h => h.utf8ByteSize + 2)).getD i 0) : Int)))
    with hcols
  set ph := List.replicate data.headers.length "无数据" with hph
  have hcolslen : cols.length = data.headers.length := by
    rw [hcols]; simp
  have hcolsne : cols ≠ [] := by
    intro hx
    rw [hx] at hcolslen
    simp at hcolslen
    omega
  have hcolsE : ¬ cols.isEmpty := by simpa using hcolsne
  set m0 : TableModel := calculateMaxColumnsM { newTableModel with
    title := data.title
    rowCount := 0
    originalRows := [ph]
    allRows := [ph]
    tableColumns := cols
    width := (match ts with
      | some (w, h) => ((w - 4 : Int), if h - 12 < 10 then (10 : Int) else h - 12)
      | none => ((80 : Int), (20 : Int))).1
    height := (match ts with
      | some (w, h) => ((w - 4 : Int), if h - 12 < 10 then (10 : Int) else h - 12)
      | none => ((80 : Int), (20 : Int))).2
    queryDuration := d
    table := Widget.new cols [ph] true 0 (match ts with
      | some (w, h) => ((w - 4 : Int), if h - 12 < 10 then (10 : Int) else h - 12)
      | none => ((80 : Int), (20 : Int))).2 } with hm0
  have hm0cols : m0.tableColumns = cols := rfl
  have hm0colsE : ¬ m0.tableColumns.isEmpty := by
    rw [hm0cols]; exact hcolsE
  have hm0rows : m0.originalRows = [ph] := rfl
  have hm0ne : m0.originalRows ≠ [] := by rw [hm0rows]; simp
  have hfields := uvc_fields m0
  have hres := uvc_result m0 hm0colsE hm0ne
  have hvl : (uvcVisRows m0).length = 1 := by
    rw [uvcVisRows_length, hm0rows]
    rfl
  have hposVR : 0 < (uvcVisRows m0).length := by omega
  have hcur := uvcT1_cursor m0 hposVR
  have hsel : (uvcT1 m0).selectedRow ≠ [] := by
    apply uvc_selectedRow_ne_nil m0 (by rw [hm0cols]; omega) hm0ne
    intro r hr
    rw [hm0rows] at hr
    simp at hr
    rw [hr, hph, hm0cols, hcolslen]
    simp
  refine ⟨?_, ?_, ?_, ?_, ?_, ?_, ?_⟩
  · rw [hfields.1, hm0rows]
  · rw [hfields.2.1]
    rfl
  · rw [hfields.2.2.1]
    rfl
  · rw [hres]
    show (uvcT1 m0).rows.length = 1
    rw [uvcT1_rows]
    exact hvl
  · rw [hres]
    show (uvcT1 m0).cursor = 0
    rw [hcur, hvl]
    have hc0 : m0.table.cursor = 0 := rfl
    rw [hc0]
    rfl
  · rw [hres]
    exact hsel
  · rw [hfields.1, hm0rows]
    rfl

theorem claim10_placeholder_row_w :
    (["A", "B"] : List String) ≠ [] ∧
    goParseDuration (lookupGo [("QueryDuration", "1s")] "QueryDuration") =
      some 1000000000 ∧
    (showTableM ⟨"t", ["A", "B"], [], [("QueryDuration", "1s")]⟩ (some (80, 24))).map
        TableModel.originalRows =
      some [["无数据", "无数据"]] ∧
    (showTableM ⟨"t", ["A", "B"], [], [("QueryDuration", "1s")]⟩ (some (80, 24))).map
        TableModel.rowCount =
      some 0 := by
  obtain ⟨m, hm, h1, h2, h3, _⟩ := claim10_placeholder_row
    ⟨"t", ["A", "B"], [], [("QueryDuration", "1s")]⟩ (some (80, 24))
    (by decide) rfl 1000000000 (by decide)
  refine ⟨by decide, by decide, ?_, ?_⟩
  · rw [hm]
    dsimp only [Option.map]
    rw [h1]
    rfl
  · rw [hm]
    dsimp only [Option.map]
    rw [h3]

end CharmTui
